import Mathlib

/-!
Verification development for the lustre LNet netlink/YAML transcoder
(`lnet/utils/lnetconfig/liblnetconfig_netlink.c`).

The C file is a bidirectional bridge between libyaml and generic netlink:
the inbound path caches a schema tree sent by the kernel and joins it with
value batches to produce YAML text in the caller's buffer; the outbound
path classifies emitted YAML lines and repackages them as netlink
attributes.  The definitions below are a shallow embedding of that file:
pure fragments become Lean functions, the mutable session becomes explicit
state records, C pointers into lists become indices, and heap freeing is
made observable by returning counts of released nodes.  Fuel arguments
replace unbounded C loops; running out of fuel is a distinguished outcome,
never silently conflated with a crash.
-/

set_option maxRecDepth 10000

/-! ## Attribute type and key-format constants -/

/-- libnl attribute type code for unsigned 16-bit values. -/
def NLA_U16 : Nat := 2

/-- libnl attribute type code for unsigned 32-bit values. -/
def NLA_U32 : Nat := 3

/-- libnl attribute type code for unsigned 64-bit values. -/
def NLA_U64 : Nat := 4

/-- libnl attribute type code for strings. -/
def NLA_STRING : Nat := 5

/-- libnl attribute type code for nested containers. -/
def NLA_NESTED : Nat := 8

/-- Attribute type code for nul-terminated strings; the source defines it
itself (`#define NLA_NUL_STRING 10`). -/
def NLA_NUL_STRING : Nat := 10

/-- Signed 16-bit attribute code, defined in the source (`#define NLA_S16 13`). -/
def NLA_S16 : Nat := 13

/-- Signed 32-bit attribute code, defined in the source (`#define NLA_S32 14`). -/
def NLA_S32 : Nat := 14

/-- Signed 64-bit attribute code, defined in the source (`#define NLA_S64 15`). -/
def NLA_S64 : Nat := 15

/-- Modelled from the spec: key-format bit FLOW = 1 of `enum lnet_nl_key_format`
(declared in `lnet-nl.h`, which is not under `src/`; the spec's external
interface table gives FLOW=1, SEQUENCE=2, MAPPING=4). -/
def LNKF_FLOW : Nat := 1

/-- Modelled from the spec: key-format bit SEQUENCE = 2 of
`enum lnet_nl_key_format` (see `LNKF_FLOW`). -/
def LNKF_SEQUENCE : Nat := 2

/-- Modelled from the spec: key-format bit MAPPING = 4 of
`enum lnet_nl_key_format` (see `LNKF_FLOW`). -/
def LNKF_MAPPING : Nat := 4

/-- Internal END marker, defined in the source itself (`#define LNKF_END 8`). -/
def LNKF_END : Nat := 8

/-! ## Schema tree and attribute values -/

/-- One key descriptor (`struct ln_key_props`): format bitset, attribute data
type, and the owned name/value string (`NULL` when never set, as after
`calloc`). -/
structure LnKeyProps where
  lkp_key_format : Nat
  lkp_data_type : Nat
  lkp_values : Option String
deriving Repr, DecidableEq, Inhabited

/-- One level of the cached schema tree (`struct yaml_nl_node`): the declared
slot count `lkl_maxattr`, the key table (slot 0 is the unused sentinel), and
the child nodes, one per nested-typed key, in declaration order. -/
inductive YamlNlNode where
  | mk (maxattr : Nat) (keys : List LnKeyProps) (children : List YamlNlNode)
deriving Repr

/-- Projection: declared slot count of a schema node. -/
def YamlNlNode.maxattr : YamlNlNode → Nat
  | .mk m _ _ => m

/-- Projection: key table of a schema node. -/
def YamlNlNode.keys : YamlNlNode → List LnKeyProps
  | .mk _ ks _ => ks

/-- Projection: child nodes of a schema node. -/
def YamlNlNode.children : YamlNlNode → List YamlNlNode
  | .mk _ _ cs => cs

/-- A decoded netlink attribute value, tagged with its primitive type.  A
nested attribute holds a list of elements, each element already parsed into
an index-addressed slot array (the result of `nla_parse_nested`; slot `i`
holds the attribute at index `i`, `none` when absent). -/
inductive NlaValue where
  | u16 (v : Nat)
  | u32 (v : Nat)
  | u64 (v : Nat)
  | s16 (v : Int)
  | s32 (v : Int)
  | s64 (v : Int)
  | str (s : String)
  | nested (elems : List (List (Option NlaValue)))

/-- `nla_strdup` of an attribute used as a string payload; non-string
payloads reinterpret raw bytes, modelled as the empty string. -/
def nla_strdup : NlaValue → String
  | .str s => s
  | _ => ""

/-! ## The inbound write buffer -/

/-- Write-side state of the inbound session: the buffer contents written so
far, the write pointer `data->buffer` as an offset, the remaining-capacity
counter `*size`, and the rolling indentation `data->indent`. -/
structure WriteSt where
  buf : List Char
  pos : Nat
  size : Int
  indent : Nat
deriving Repr, DecidableEq

/-- Store `s` at offset `p` of the buffer, overwriting in place (C memory
semantics for `memcpy`/`snprintf` at a pointer). -/
def writeAt (buf : List Char) (p : Nat) (s : List Char) : List Char :=
  buf.take p ++ s ++ buf.drop (p + s.length)

/-- Indentation prefix of `n` spaces. -/
def spaces (n : Nat) : List Char := List.replicate n ' '

/-- One successfully formatted fragment: the bytes are stored at the write
pointer, the pointer advances by the fragment length, and the
remaining-capacity counter is decreased by it.  This is the pattern of the
indent write (lines 529-536), the key write (lines 540-546), the top-level
label write (lines 638-644) and the container-open writes (lines 583-604)
of `yaml_parse_value_list`. -/
def pushFrag (st : WriteSt) (s : List Char) : WriteSt :=
  { st with buf := writeAt st.buf st.pos s,
            pos := st.pos + s.length,
            size := st.size - s.length }

/-- The separator/unwind block closing each iteration of
`yaml_parse_value_list` (lines 700-713).  A pending scalar of length
`len > 0` gets `", "` (flow) or `"\n"` appended at `buffer + len`; the
pointer then advances by the total, and the capacity counter is
*incremented* by it (`*size += len` in the source).  A negative `len`
takes the unwind path: the pointer is reverted by `indent + 2` and the
counter decreased by `indent + 2`. -/
def sepStep (st : WriteSt) (len : Int) (flow : Bool) : WriteSt :=
  if 0 < len then
    let n := len.toNat
    if flow then
      { st with buf := writeAt st.buf (st.pos + n) (',' :: [' ']),
                pos := st.pos + (n + 2),
                size := st.size + (len + 2) }
    else
      { st with buf := writeAt st.buf (st.pos + n) ['\n'],
                pos := st.pos + (n + 1),
                size := st.size + (len + 1) }
  else if len < 0 then
    { st with pos := st.pos - (st.indent + 2),
              size := st.size - (st.indent + 2) }
  else st

/-- Closing a flow container (lines 612-623): the two bytes before the write
pointer (the trailing `", "`) are overwritten with `" }\n"` (`" ]\n"` for a
sequence) and the pointer advances by one, the counter decreasing by one. -/
def flowClose (st : WriteSt) (seq : Bool) : WriteSt :=
  let brace : List Char := if seq then ' ' :: ']' :: ['\n'] else ' ' :: '\x7d' :: ['\n']
  { st with buf := writeAt st.buf (st.pos - 2) brace,
            pos := st.pos + 1,
            size := st.size - 1 }

/-- A scalar `snprintf` at the write pointer: the text is stored but the
pointer does not advance; the formatted length is returned in `len` (the
advance happens later in `sepStep`). -/
def scalarWrite (st : WriteSt) (s : List Char) : WriteSt × Int :=
  ({ st with buf := writeAt st.buf st.pos s }, (s.length : Int))

/-- glibc rendering of `snprintf("%s", NULL)`, used where the source formats
a key name that was never populated. -/
def fmtOptName : Option String → List Char
  | some s => s.data
  | none => '(' :: 'n' :: 'u' :: 'l' :: 'l' :: [')']

/-! ## The inbound value transcoder -/

/-- Failure modes of the embedded inbound transcoder.  `noChild` models the
NULL-pointer dereference of `get_next_child`'s result (line 551-553),
`nullStr` models `strlen(NULL)` on a missing label string (line 637), and
`outOfFuel` is exhaustion of the explicit fuel, never a behaviour of the C
code. -/
inductive PErr where
  | noChild
  | nullStr
  | nullCur
  | outOfFuel
deriving Repr, DecidableEq

/-- Loop-carried state of the `for (i = 1; i < maxattr; i++)` loop of
`yaml_parse_value_list`: the write state, the C-local `len` (which is NOT
reset between iterations), the nested-child cursor `child_idx`, the local
`mapping` copy of the parent's key format (mutated at line 533), the key
table and children of the current node (mutable through pointers in C), and
the `parent` key descriptor (mutable through the passed pointer). -/
structure ValueLoopSt where
  st : WriteSt
  len : Int
  childIdx : Nat
  mapping : Nat
  keys : List LnKeyProps
  children : List YamlNlNode
  parent : LnKeyProps

/-- Lines 525-546: for a plain-scalar slot, write the indentation prefix
(with `"- "` substituted when the sequence bit is live, clearing that bit
when the mapping bit is also set) unless in flow style, then write the
`"name: "` key prefix when the mapping bit is set.  `len` is left equal to
the key-write length, exactly as in the source (the subsequent switch
normally overwrites it). -/
def indentKeyPhase (ls : ValueLoopSt) (ki : LnKeyProps) : ValueLoopSt :=
  let ls :=
    if ls.mapping &&& LNKF_FLOW == 0 then
      let ind := if ls.st.indent = 0 then 2 else ls.st.indent
      let frag :=
        if ls.mapping &&& LNKF_SEQUENCE != 0 then (spaces ind).set (ind - 2) '-'
        else spaces ind
      let mapping' :=
        if ls.mapping &&& LNKF_SEQUENCE != 0 && ls.mapping &&& LNKF_MAPPING != 0 then
          ls.mapping ^^^ LNKF_SEQUENCE
        else ls.mapping
      { ls with st := pushFrag ls.st frag, mapping := mapping' }
    else ls
  if ls.mapping &&& LNKF_MAPPING != 0 then
    let s := fmtOptName ki.lkp_values ++ (':' :: [' '])
    { ls with st := pushFrag ls.st s, len := (s.length : Int) }
  else ls

/-- Lines 654-658 (`not_first`): when the label slot carries a value
attribute and the parent's stored label string is non-NULL, the parent's
label is replaced by the attribute's text. -/
def labelReplace (ls : ValueLoopSt) (attr : Option NlaValue) : ValueLoopSt :=
  match attr, ls.parent.lkp_values with
  | some a, some _ =>
      { ls with parent := { ls.parent with lkp_values := some (nla_strdup a) } }
  | _, _ => ls

/-- Format a scalar attribute per the switch of lines 662-698.  Returns
`none` for data types that reach the `default:` arm without assigning `len`
(so the stale `len` survives, as in the source). -/
def formatScalar (ty : Nat) (v : NlaValue) : Option (List Char) :=
  if ty = NLA_STRING then
    some (match v with | .str s => s.data | _ => [])
  else if ty = NLA_U16 then
    some (toString (match v with | .u16 n => n | _ => 0)).data
  else if ty = NLA_U32 then
    some (toString (match v with | .u32 n => n | _ => 0)).data
  else if ty = NLA_U64 then
    some (toString (match v with | .u64 n => n | _ => 0)).data
  else if ty = NLA_S16 then
    some (toString (match v with | .s16 n => n | _ => 0)).data
  else if ty = NLA_S32 then
    some (toString (match v with | .s32 n => n | _ => 0)).data
  else if ty = NLA_S64 then
    some (toString (match v with | .s64 n => n | _ => 0)).data
  else none

mutual

/-- `yaml_parse_value_list` (lines 504-715): join the current schema node
against one parsed value array and emit YAML text into the buffer.  `parent`
is the key descriptor whose format governs this level; `atRoot` models the
pointer comparison `data->cur == data->root`.  Returns the write state, the
(possibly label-replaced) parent descriptor, and the (possibly mutated)
node. -/
def yaml_parse_value_list (fuel : Nat) (st : WriteSt) (node : YamlNlNode)
    (attrs : List (Option NlaValue)) (parent : LnKeyProps) (atRoot : Bool) :
    Except PErr (WriteSt × LnKeyProps × YamlNlNode) :=
  match fuel with
  | 0 => .error .outOfFuel
  | f + 1 =>
    match node with
    | .mk maxattr keys children => do
      let ls0 : ValueLoopSt :=
        { st := st, len := 0, childIdx := 0, mapping := parent.lkp_key_format,
          keys := keys, children := children, parent := parent }
      let ls ← valueLoop f (List.range' 1 (maxattr - 1)) attrs atRoot ls0
      pure (ls.st, ls.parent, .mk maxattr ls.keys ls.children)

/-- The slot loop of `yaml_parse_value_list`: one `valueStep` per index. -/
def valueLoop (fuel : Nat) (idxs : List Nat) (attrs : List (Option NlaValue))
    (atRoot : Bool) (ls : ValueLoopSt) : Except PErr ValueLoopSt :=
  match fuel with
  | 0 => .error .outOfFuel
  | f + 1 =>
    match idxs with
    | [] => pure ls
    | i :: rest => do
      let ls' ← valueStep f i attrs atRoot ls
      valueLoop f rest attrs atRoot ls'

/-- One iteration of the slot loop of `yaml_parse_value_list` (the body of
lines 513-714 for slot `i`). -/
def valueStep (fuel : Nat) (i : Nat) (attrs : List (Option NlaValue))
    (atRoot : Bool) (ls : ValueLoopSt) : Except PErr ValueLoopSt :=
  match fuel with
  | 0 => .error .outOfFuel
  | f + 1 =>
    let attr := attrs.getD i none
    let ki := ls.keys.getD i default
    -- line 517: slots with neither an attribute nor a stored name are skipped
    if attr.isNone && ki.lkp_values.isNone then
      pure ls
    else
    -- line 522: plain-scalar slots with no attribute are skipped before any write
    if (ki.lkp_data_type != NLA_NUL_STRING && ki.lkp_data_type != NLA_NESTED)
        && attr.isNone then
      pure ls
    else
    let ls1 :=
      if ki.lkp_data_type != NLA_NUL_STRING && ki.lkp_data_type != NLA_NESTED then
        indentKeyPhase ls ki
      else ls
    if ki.lkp_data_type == NLA_NESTED then
      -- lines 550-560: the next child is fetched and dereferenced (for its
      -- lkl_maxattr) BEFORE the attribute-absence check
      match ls1.children.get? ls1.childIdx with
      | none => .error .noChild
      | some next =>
        let ls2 := { ls1 with childIdx := ls1.childIdx + 1 }
        match attr with
        | none => pure ls2
        | some a => do
          let elems := match a with | .nested es => es | _ => []
          let (ls3, next') ← elemLoop f i elems next ls2
          let ls4 := { ls3 with children := ls3.children.set ls1.childIdx next' }
          pure { ls4 with st := sepStep ls4.st ls4.len (ls4.mapping &&& LNKF_FLOW != 0) }
    else if ki.lkp_data_type == NLA_NUL_STRING then
      if i = 1 then
        if atRoot then
          -- lines 630-653: the top-level label prints once, verbatim
          match ki.lkp_values with
          | none => .error .nullStr
          | some nm =>
            let ls2 :=
              if nm.length ≠ 0 then
                { ls1 with st := pushFrag ls1.st (nm.data ++ (':' :: ['\n'])), len := 0 }
              else ls1
            let ls3 := { ls2 with st := { ls2.st with indent := 0 } }
            let ls4 :=
              if ls3.mapping &&& LNKF_FLOW == 0 then
                if ls3.mapping &&& LNKF_SEQUENCE != 0 then
                  { ls3 with st := { ls3.st with indent := ls3.st.indent + 2 } }
                else if ls3.mapping &&& LNKF_MAPPING != 0 then
                  { ls3 with st := { ls3.st with indent := ls3.st.indent + 2 } }
                else ls3
              else ls3
            let ls5 := labelReplace ls4 attr
            pure { ls5 with st := sepStep ls5.st ls5.len (ls5.mapping &&& LNKF_FLOW != 0) }
        else
          let ls2 := labelReplace ls1 attr
          pure { ls2 with st := sepStep ls2.st ls2.len (ls2.mapping &&& LNKF_FLOW != 0) }
      else
        -- label slots beyond index 1 fall straight through the switch
        pure { ls1 with st := sepStep ls1.st ls1.len (ls1.mapping &&& LNKF_FLOW != 0) }
    else
      -- scalar slots: the attribute is present (guarded above)
      let v := attr.getD (.u32 0)
      let ls2 :=
        match formatScalar ki.lkp_data_type v with
        | some txt =>
          let (st', len') := scalarWrite ls1.st txt
          { ls1 with st := st', len := len' }
        | none => ls1
      pure { ls2 with st := sepStep ls2.st ls2.len (ls2.mapping &&& LNKF_FLOW != 0) }

/-- The `nla_for_each_nested` element loop of the NLA_NESTED case (lines
566-624): for each element, write the container-open line per the key's
format, adjust the rolling indent, recurse into the child schema node, and
close flow containers.  The child node and the enclosing key table evolve
through the loop (the recursion may replace label strings through the
`parent` pointer). -/
def elemLoop (fuel : Nat) (i : Nat) (elems : List (List (Option NlaValue)))
    (next : YamlNlNode) (ls : ValueLoopSt) : Except PErr (ValueLoopSt × YamlNlNode) :=
  match fuel with
  | 0 => .error .outOfFuel
  | f + 1 =>
    match elems with
    | [] => pure (ls, next)
    | e :: es => do
      let ki := ls.keys.getD i default
      let fmt := ki.lkp_key_format
      let (ls1, indentLocal) :=
        if fmt &&& LNKF_FLOW != 0 then
          let brace : Char := if fmt &&& LNKF_SEQUENCE != 0 then '[' else '\x7b'
          let s := spaces ls.st.indent ++ fmtOptName ki.lkp_values
                     ++ (':' :: [' ']) ++ [brace] ++ [' ']
          ({ ls with st := pushFrag ls.st s, len := 0 }, 0)
        else
          let ind := (if fmt &&& LNKF_MAPPING != 0 then 2 else 0)
                   + (if fmt &&& LNKF_SEQUENCE != 0 then 2 else 0)
          let s := spaces ls.st.indent ++ fmtOptName ki.lkp_values ++ (':' :: ['\n'])
          ({ ls with st := pushFrag ls.st s, len := 0 }, ind)
      let stIn := { ls1.st with indent := ls1.st.indent + indentLocal }
      let (st2, parent', next') ← yaml_parse_value_list f stIn next e ki false
      let st3 := { st2 with indent := st2.indent - indentLocal }
      let keys' := ls1.keys.set i parent'
      let fmt' := (keys'.getD i default).lkp_key_format
      let st4 :=
        if fmt' &&& LNKF_FLOW != 0 then flowClose st3 (fmt' &&& LNKF_SEQUENCE != 0)
        else st3
      elemLoop f i es next' { ls1 with st := st4, keys := keys' }

end

/-! ## Schema intake (`yaml_parse_key_list`) -/

/-- One parsed key record of a schema message: the six attributes of the
`scalar_attr_policy` table (`LN_SCALAR_ATTR_LIST_SIZE`, `_INDEX`,
`_NLA_TYPE`, `_KEY_FORMAT`, `_VALUE`, and the recursive `_LIST`). -/
inductive ScalarRec where
  | mk (list_size : Option Nat) (index : Option Nat) (nla_type : Option Nat)
       (key_format : Option Nat) (value : Option String)
       (sublist : Option (List ScalarRec))

/-- Projection: the `LN_SCALAR_ATTR_LIST_SIZE` field of a key record. -/
def ScalarRec.list_size : ScalarRec → Option Nat
  | .mk a _ _ _ _ _ => a

/-- Projection: the `LN_SCALAR_ATTR_INDEX` field of a key record. -/
def ScalarRec.index : ScalarRec → Option Nat
  | .mk _ a _ _ _ _ => a

/-- Projection: the `LN_SCALAR_ATTR_NLA_TYPE` field of a key record. -/
def ScalarRec.nla_type : ScalarRec → Option Nat
  | .mk _ _ a _ _ _ => a

/-- Projection: the `LN_SCALAR_ATTR_KEY_FORMAT` field of a key record. -/
def ScalarRec.key_format : ScalarRec → Option Nat
  | .mk _ _ _ a _ _ => a

/-- Projection: the `LN_SCALAR_ATTR_VALUE` field of a key record. -/
def ScalarRec.value : ScalarRec → Option String
  | .mk _ _ _ _ a _ => a

/-- Projection: the recursive `LN_SCALAR_ATTR_LIST` field of a key record. -/
def ScalarRec.sublist : ScalarRec → Option (List ScalarRec)
  | .mk _ _ _ _ _ a => a

/-- Update one key slot of a node (writes through `node->keys.lkl_list[index]`;
the C code performs no bounds check and an out-of-range index is undefined
behaviour there, modelled as a no-op of `List.set`). -/
def setKeySlot (nd : YamlNlNode) (i : Nat) (f : LnKeyProps → LnKeyProps) : YamlNlNode :=
  .mk nd.maxattr (nd.keys.set i (f (nd.keys.getD i default))) nd.children

/-- Status results of the libnl message callbacks. -/
inductive KLStatus where
  | ok
  | stop
  | fuelOut
deriving Repr, DecidableEq

/-- `yaml_parse_key_list` (lines 369-448): build one level of the schema tree
from the key records of a schema message.  The first record carrying a
`list_size` allocates the level's node with `maxattr = list_size + 1` (keys
zeroed as by `calloc`); records then populate slot `index`; a record with a
recursive list descends, attaching the sub-level node as the last child.
A record with no node allocated yet, or with index 0, stops the walk
(`NL_STOP`).  Returns the status together with the node built at this level
(the partially built node survives a stop, as in the source, where teardown
only happens at session end). -/
def yaml_parse_key_list (fuel : Nat) (recs : List ScalarRec) (node : Option YamlNlNode) :
    KLStatus × Option YamlNlNode :=
  match fuel with
  | 0 => (.fuelOut, node)
  | f + 1 =>
    match recs with
    | [] => (.ok, node)
    | r :: rest =>
      let node : Option YamlNlNode :=
        match r.list_size, node with
        | some n, none => some (.mk (n + 1) (List.replicate (n + 1) default) [])
        | _, nd => nd
      match node with
      | none => (.stop, none)
      | some nd =>
        let index := r.index.getD 0
        if index = 0 then (.stop, some nd)
        else
          let nd := match r.key_format with
            | some v => setKeySlot nd index (fun k => { k with lkp_key_format := v })
            | none => nd
          let nd := match r.nla_type with
            | some v => setKeySlot nd index (fun k => { k with lkp_data_type := v })
            | none => nd
          let nd := match r.value with
            | some v => setKeySlot nd index (fun k => { k with lkp_values := some v })
            | none => nd
          match r.sublist with
          | some subs =>
            let (st, child) := yaml_parse_key_list f subs none
            let nd := match child with
              | some c => YamlNlNode.mk nd.maxattr nd.keys (nd.children ++ [c])
              | none => nd
            if st = KLStatus.ok then yaml_parse_key_list f rest (some nd)
            else (st, some nd)
          | none => yaml_parse_key_list f rest (some nd)

/-! ## Teardown (`cleanup_children`) -/

mutual

/-- Number of nodes in a schema subtree. -/
def nodeSize : YamlNlNode → Nat
  | .mk _ _ cs => 1 + sizeList cs

/-- Total node count of a list of subtrees. -/
def sizeList : List YamlNlNode → Nat
  | [] => 0
  | c :: cs => nodeSize c + sizeList cs

end

mutual

/-- `cleanup_children` (lines 770-791): post-order teardown.  A childless
node releases its key strings and unlinks itself, telling the caller to free
it (`true`).  A node with children repeatedly takes its first child,
recursively cleans it, and frees it once childless.  The result carries the
number of descendant nodes freed inside the call; `none` is fuel exhaustion
(the C loop always terminates since every pass removes nodes). -/
def cleanup_children (fuel : Nat) (node : YamlNlNode) : Option (Bool × Nat) :=
  match fuel with
  | 0 => none
  | f + 1 =>
    if node.children.isEmpty then some (true, 0)
    else cleanup_loop f node.children

/-- The `while ((child = get_next_child(parent, 0)))` loop of
`cleanup_children`: clean the first child; if it reports childless it is
freed and removed, otherwise it is now childless and the next pass frees
it. -/
def cleanup_loop (fuel : Nat) (cs : List YamlNlNode) : Option (Bool × Nat) :=
  match cs with
  | [] => some (false, 0)
  | c :: rest =>
    match fuel with
    | 0 => none
    | f + 1 =>
      match cleanup_children f c with
      | none => none
      | some (true, k) =>
        match cleanup_loop f rest with
        | none => none
        | some (_, k') => some (false, k + 1 + k')
      | some (false, k) =>
        match cleanup_loop f (YamlNlNode.mk c.maxattr c.keys [] :: rest) with
        | none => none
        | some (_, k') => some (false, k + k')

end

/-! ## Session state and the message callbacks -/

/-- The inbound session (`struct yaml_netlink_input`): cached schema root,
traversal cursor, completion flag, the cached error string, the parser error
flag (`parser->error == YAML_READER_ERROR`), and the rolling indent.  In
every state the program reaches, `cur` equals `root` at message boundaries
(it is reset to the root after each schema message and save/restored around
descents). -/
structure Session where
  root : Option YamlNlNode
  cur : Option YamlNlNode
  complete : Bool
  errmsg : Option String
  parserError : Bool
  indent : Nat

/-- External libnl string translation: `nl_geterror (nl_syserr2nlerr code)`
for kernel-reported errors and `nl_geterror rc` for receive failures.  Both
are out-of-scope transport helpers, abstracted as an environment. -/
structure NlEnv where
  translateErr : Int → String
  geterror : Int → String

/-- A terminal message as seen by `yaml_netlink_msg_complete`: the
`NLMSG_ERROR` type bit, the `NLM_F_ACK_TLVS` flag, the error code of the
`nlmsgerr` payload, and the extended-ack `NLMSGERR_ATTR_MSG` text when the
TLVs carry one. -/
structure TermMsg where
  isError : Bool
  ackTlvs : Bool
  errCode : Int
  extack : Option String

/-- The error string a terminal error message leaves on the session: the
extended-ack text when `NLM_F_ACK_TLVS` TLVs carry one, otherwise the libnl
translation of the error code (lines 808-825). -/
def errStringOf (env : NlEnv) (tm : TermMsg) : String :=
  match tm.ackTlvs, tm.extack with
  | true, some t => t
  | _, _ => env.translateErr tm.errCode

/-- `yaml_netlink_msg_complete` (lines 797-835).  A terminal message whose
`nlmsgerr` payload carries a nonzero error caches the error string and marks
the parser errored; otherwise the schema tree is torn down (the count of
freed nodes is returned, `free(data->root)` included).  In both branches the
completion flag is set.  The freeing is modelled by dropping the root. -/
def yaml_netlink_msg_complete (env : NlEnv) (fuel : Nat) (s : Session) (tm : TermMsg) :
    Session × Nat :=
  if (tm.isError || tm.ackTlvs) && tm.errCode != 0 then
    ({ s with errmsg := some (errStringOf env tm), parserError := true, complete := true }, 0)
  else
    match s.root with
    | some r =>
      let freed := (match cleanup_children fuel r with | some (_, k) => k | none => 0) + 1
      ({ s with root := none, cur := none, complete := true }, freed)
    | none => ({ s with complete := true }, 0)

/-- One inbound non-terminal message: the `NLM_F_CREATE` flag selects the
schema branch; `parseOk` models the `genlmsg_parse` result (failure skips
the message); `multi`/`done` are the `NLM_F_MULTI` flag and the
`NLMSG_DONE` type used by the trailing status check. -/
inductive InMsg where
  | create (parseOk : Bool) (list : Option (List ScalarRec)) (multi : Bool) (done : Bool)
  | values (parseOk : Bool) (attrs : List (Option NlaValue)) (multi : Bool) (done : Bool)

/-- The libnl callback status codes returned by `yaml_netlink_msg_parse`. -/
inductive NlStatus where
  | ok
  | stop
  | skip
  | fuelOut
deriving Repr, DecidableEq

/-- Lines 764-767: keep receiving while the multi flag is set and the
message is not the final `NLMSG_DONE`. -/
def endStatus (multi done : Bool) : NlStatus :=
  if multi && !done then .ok else .stop

/-- `yaml_netlink_msg_parse` (lines 724-768): classify a message by its
`NLM_F_CREATE` flag.  Schema messages run `yaml_parse_key_list`; the session
root and cursor are set only if still unset (so a later schema message's
nodes are built but never linked into an existing tree), and on success the
cursor is reset to the root.  Value messages join the cursor node with the
parsed attribute array via `yaml_parse_value_list`, with the remaining
buffer capacity recomputed from the write pointer. -/
def yaml_netlink_msg_parse (fuel : Nat) (cap : Nat) (s : Session) (st : WriteSt)
    (m : InMsg) : Except PErr (Session × WriteSt × NlStatus) :=
  match m with
  | .create parseOk list multi done =>
    if !parseOk then .ok (s, st, .skip)
    else
      match list with
      | none => .ok (s, st, endStatus multi done)
      | some recs =>
        let (kst, built) := yaml_parse_key_list fuel recs none
        let root' := match s.root with | some r => some r | none => built
        let cur'  := match s.cur  with | some c => some c | none => built
        match kst with
        | .ok => .ok ({ s with root := root', cur := root' }, st, endStatus multi done)
        | .stop => .ok ({ s with root := root', cur := cur' }, st, .stop)
        | .fuelOut => .ok ({ s with root := root', cur := cur' }, st, .fuelOut)
  | .values parseOk attrs multi done =>
    if !parseOk then .ok (s, st, .skip)
    else
      match s.cur with
      | none => .error .nullCur
      | some cur => do
        let st0 := { st with size := (cap : Int) - (st.pos : Int) }
        let parent := cur.keys.getD 1 default
        let (st', parent', cur') ← yaml_parse_value_list fuel st0 cur attrs parent true
        let cur2 := YamlNlNode.mk cur'.maxattr (cur'.keys.set 1 parent') cur'.children
        .ok ({ s with cur := some cur2, root := some cur2 }, st', endStatus multi done)

/-- A message as dispatched by `nl_recvmsgs_report`: ordinary messages reach
the `NL_CB_VALID` callback (`yaml_netlink_msg_parse`), final messages
(terminal framing or netlink-layer errors) reach the `NL_CB_FINISH`
callback (`yaml_netlink_msg_complete`). -/
inductive DispatchMsg where
  | normal (m : InMsg)
  | finish (tm : TermMsg)

/-- The receive dispatch loop: messages are processed in arrival order until
one of the callbacks returns `NL_STOP` (the finish callback always does). -/
def dispatchMsgs (env : NlEnv) (fuel : Nat) (cap : Nat) :
    List DispatchMsg → Session → WriteSt → Except PErr (Session × WriteSt)
  | [], s, st => .ok (s, st)
  | m :: rest, s, st =>
    match m with
    | .finish tm =>
      let (s', _) := yaml_netlink_msg_complete env fuel s tm
      .ok (s', st)
    | .normal im => do
      let (s', st', status) ← yaml_netlink_msg_parse fuel cap s st im
      match status with
      | .ok => dispatchMsgs env fuel cap rest s' st'
      | .skip => dispatchMsgs env fuel cap rest s' st'
      | .stop => .ok (s', st')
      | .fuelOut => .error .outOfFuel

/-- The outcome of one `nl_recvmsgs_report` call: an interrupt (`-NLE_INTR`),
another negative error code, or a batch of dispatched messages. -/
inductive RecvOutcome where
  | intr
  | err (rc : Int)
  | msgs (ms : List DispatchMsg)

/-- `yaml_netlink_read_handler` (lines 843-877).  A completed session reads
zero bytes with success; an interrupted receive likewise; a receive error
caches the libnl error string and fails; otherwise the dispatched messages
write into the fresh buffer, and the handler fails without reporting a size
if the finish callback marked the parser errored, else reports the buffer
advance clamped to the capacity. -/
def yaml_netlink_read_handler (env : NlEnv) (fuel : Nat) (s : Session) (cap : Nat)
    (recv : RecvOutcome) : Except PErr (Session × Option Nat × Bool) :=
  if s.complete then .ok (s, some 0, true)
  else
    match recv with
    | .intr => .ok (s, some 0, true)
    | .err rc => .ok ({ s with errmsg := some (env.geterror rc) }, none, false)
    | .msgs ms => do
      let st0 : WriteSt := { buf := [], pos := 0, size := 0, indent := s.indent }
      let (s', st') ← dispatchMsgs env fuel cap ms s st0
      let s2 := { s' with indent := st'.indent }
      if s2.parserError then .ok (s2, none, false)
      else .ok (s2, some (min cap st'.pos), true)

/-- `yaml_parser_get_reader_error` (lines 883-892): `NULL` handler data
yields `NULL`, otherwise the session's cached error string. -/
def yaml_parser_get_reader_error (handlerData : Option Session) : Option String :=
  match handlerData with
  | none => none
  | some s => s.errmsg

/-! ## Schema-tree invariant (spec invariant 2) -/

/-- Number of nested-typed keys among the given slot indices. -/
def countNested (keys : List LnKeyProps) (idxs : List Nat) : Nat :=
  (idxs.filter (fun i => (keys.getD i default).lkp_data_type == NLA_NESTED)).length

mutual

/-- Spec invariant 2, decidably: every level provides at least one child
node per nested-typed key (children are consumed in declaration order by
`get_next_child`), recursively. -/
def schemaInvB : YamlNlNode → Bool
  | .mk m keys cs =>
    decide (countNested keys (List.range' 1 (m - 1)) ≤ cs.length) && schemaInvList cs

/-- `schemaInvB` over a list of children. -/
def schemaInvList : List YamlNlNode → Bool
  | [] => true
  | c :: cs => schemaInvB c && schemaInvList cs

end

/-- Two key tables carrying the same data type in every slot (value-phase
processing may replace label strings but never changes a slot's type). -/
def keyTypesEq (ks1 ks2 : List LnKeyProps) : Prop :=
  ∀ j, (ks1.getD j default).lkp_data_type = (ks2.getD j default).lkp_data_type

/-! ## Outbound transcoder -/

/-- C `isspace` for the default locale, as used by `indent_level`. -/
def isCSpace (c : Char) : Bool :=
  c = ' ' || c = '\t' || c = '\n' || c = '\x0b' || c = '\x0c' || c = '\r'

/-- `indent_level` (lines 974-981): number of leading whitespace characters
of a line. -/
def indent_level (line : List Char) : Nat :=
  (line.takeWhile isCSpace).length

/-- `yaml_format_type` (lines 985-1014): classify one outbound body line.
Checks, in source order: a brace or bracket anywhere makes it FLOW; an
indentation decrease makes it END (the running offset stepping back by the
emitter's best-indent); a `"- "` right after the indent makes it SEQUENCE
(offset advancing to the line indent plus best-indent); an indentation
change otherwise updates the offset and yields MAPPING unless the previous
format already was MAPPING; otherwise a plain scalar (0). -/
def yaml_format_type (best_indent : Nat) (line : List Char) (offset : Nat) (prev : Nat) :
    Nat × Nat :=
  if line.contains '\x7b' || line.contains '[' then (LNKF_FLOW, offset)
  else
    let new_indent := indent_level line
    if new_indent < offset then (LNKF_END, offset - best_indent)
    else if (line.drop new_indent).take 2 = ['-', ' '] then
      (LNKF_SEQUENCE, new_indent + best_indent)
    else if offset ≠ new_indent then
      if prev ≠ LNKF_MAPPING then (LNKF_MAPPING, new_indent) else (0, new_indent)
    else (0, offset)

/-- The classifier as claim C8 words it: FLOW on a brace or bracket; then
SEQUENCE (indent advancing by two) when the first two characters after the
indent are `"- "`; then END on an indentation decrease; then MAPPING on an
increase; otherwise a plain scalar.  Stated for comparison against
`yaml_format_type`. -/
def yaml_format_type_claim (line : List Char) (offset _prev : Nat) : Nat × Nat :=
  let ni := indent_level line
  if line.contains '\x7b' || line.contains '[' then (LNKF_FLOW, offset)
  else if (line.drop ni).take 2 = ['-', ' '] then (LNKF_SEQUENCE, ni + 2)
  else if ni < offset then (LNKF_END, offset)
  else if ni > offset then (LNKF_MAPPING, ni)
  else (0, offset)

/-- The classifier as the code actually behaves (the amended claim): the
indentation-decrease check precedes the sequence check, the sequence offset
advances by the emitter's best-indent, and an indentation increase yields
MAPPING only when the previous classification was not already MAPPING
(otherwise the offset still moves but the line counts as a plain scalar). -/
def yaml_format_type_amended (best : Nat) (line : List Char) (offset prev : Nat) :
    Nat × Nat :=
  let ni := indent_level line
  if line.contains '\x7b' || line.contains '[' then (LNKF_FLOW, offset)
  else if ni < offset then (LNKF_END, offset - best)
  else if (line.drop ni).take 2 = ['-', ' '] then (LNKF_SEQUENCE, ni + best)
  else if ni ≠ offset ∧ prev ≠ LNKF_MAPPING then (LNKF_MAPPING, ni)
  else if ni ≠ offset then (0, ni)
  else (0, offset)

/-- `strsep(&s, c)`: the token up to the first separator, and the rest after
it (`none` when the separator is absent and the walk is over). -/
def strsep (s : List Char) (c : Char) : List Char × Option (List Char) :=
  let tok := s.takeWhile (fun x => x ≠ c)
  match s.dropWhile (fun x => x ≠ c) with
  | [] => (tok, none)
  | _ :: rest => (tok, some rest)

/-- `strchr` from a given offset: position of the first occurrence of `c`
at or after `start`. -/
def findFrom (buf : List Char) (start : Nat) (c : Char) : Option Nat :=
  match (buf.drop start).findIdx? (fun x => x = c) with
  | some i => some (start + i)
  | none => none

/-- One of the two quote-replacement loops of `yaml_quotation_handling`
(lines 1100-1114): each opening quote and its following character become
`"% "`, and the character before the closing quote together with the quote
become `" %"`; the scan resumes just before the closing quote.  An opening
quote with no closing quote makes the C code compute `NULL - 1` and write
through it — undefined behaviour, modelled as `none`. -/
def quoteLoop (fuel : Nat) (q : Char) (buf : List Char) (tmpPos : Nat) :
    Option (List Char × Nat) :=
  match fuel with
  | 0 => none
  | f + 1 =>
    match findFrom buf tmpPos q with
    | none => some (buf, tmpPos)
    | some i =>
      let buf := (buf.set i '%').set (i + 1) ' '
      match findFrom buf i q with
      | none => none
      | some j =>
        let buf := (buf.set (j - 1) ' ').set j '%'
        quoteLoop f q buf (j - 1)

/-- `yaml_quotation_handling` (lines 1096-1115): double quotes first, then
single quotes, the second scan starting where the first one stopped. -/
def yaml_quotation_handling (fuel : Nat) (buf : List Char) : Option (List Char) :=
  match quoteLoop fuel '\"' buf 0 with
  | none => none
  | some (buf1, tmp1) =>
    match quoteLoop fuel '\'' buf1 tmp1 with
    | none => none
    | some (buf2, _) => some buf2

/-- An outbound message attribute: a `LN_SCALAR_ATTR_VALUE` string or a
nested `LN_SCALAR_ATTR_LIST` container. -/
inductive OutAttr where
  | value (s : String)
  | list (attrs : List OutAttr)

/-- The flow-content loop of `yaml_create_nested_list` (lines 1035-1052):
split the line on commas; each token drops one leading character when it
holds a brace, bracket or space, is truncated at a closing brace (else a
closing bracket), and is emitted as a string attribute. -/
def flowTokenLoop (fuel : Nat) (cur : Option (List Char)) (acc : List OutAttr) :
    List OutAttr :=
  match fuel with
  | 0 => acc
  | f + 1 =>
    match cur with
    | none => acc
    | some s =>
      let (tok, rest) := strsep s ','
      let tok :=
        if tok.contains '\x7b' || tok.contains '[' || tok.contains ' ' then tok.drop 1
        else tok
      let tok :=
        match findFrom tok 0 '\x7d' with
        | some i => tok.take i
        | none =>
          match findFrom tok 0 ']' with
          | some i => tok.take i
          | none => tok
      flowTokenLoop f rest (acc ++ [OutAttr.value (String.mk tok)])

mutual

/-- `yaml_create_nested_list` (lines 1016-1088): open a nested list
attribute; flow content is tokenized in place (leaving the caller's line
exhausted); block content emits the header (after the indent) and then
consumes following lines until an empty line, `"..."`, or an indentation
decrease, recursing on container classifications.  Returns the built list
attribute, the line on which the walk stopped (handed back through `*hdr`),
the remaining text, and the updated indent. -/
def yaml_create_nested_list (best fuel : Nat) (hdr : List Char)
    (entry : Option (List Char)) (indent fmt : Nat) :
    Option (OutAttr × Option (List Char) × Option (List Char) × Nat) :=
  match fuel with
  | 0 => none
  | f + 1 =>
    if fmt &&& LNKF_FLOW != 0 then
      some (.list (flowTokenLoop f (some hdr) []), none, entry, indent)
    else
      let first := OutAttr.value (String.mk (hdr.drop indent))
      let (line, entry') : Option (List Char) × Option (List Char) :=
        match entry with
        | none => (none, none)
        | some e => let (t, r) := strsep e '\n'; (some t, r)
      nestedInner f best [first] line entry' indent fmt
termination_by structural fuel

/-- The `do { ... } while` body of the block case of
`yaml_create_nested_list`, including the `have_next_line` re-entry after a
recursive descent. -/
def nestedInner (fuel best : Nat) (acc : List OutAttr) (line : Option (List Char))
    (entry : Option (List Char)) (indent fmt : Nat) :
    Option (OutAttr × Option (List Char) × Option (List Char) × Nat) :=
  match fuel with
  | 0 => none
  | f + 1 =>
    match line with
    | none => some (.list acc, none, entry, indent)
    | some l =>
      if l.isEmpty || l = ('.' :: '.' :: ['.']) then some (.list acc, some l, entry, indent)
      else
        let (fmt', indent') := yaml_format_type best l indent fmt
        if fmt' == LNKF_END then some (.list acc, some l, entry, indent')
        else if fmt' != 0 then
          match yaml_create_nested_list best f l entry indent' fmt' with
          | none => none
          | some (attr, line', entry2, indent2) =>
            nestedInner f best (acc ++ [attr]) line' entry2 indent2 fmt'
        else
          let acc2 := acc ++ [OutAttr.value (String.mk (l.drop indent'))]
          let (line2, entry2) : Option (List Char) × Option (List Char) :=
            match entry with
            | none => (none, none)
            | some e => let (t, r) := strsep e '\n'; (some t, r)
          nestedInner f best acc2 line2 entry2 indent' fmt'
termination_by structural fuel

end

/-- What the write handler did with the outgoing message. -/
inductive SendKind where
  | auto (attrs : List OutAttr)
  | simple

/-- Result of the line-processing loop of `yaml_netlink_write_handler`:
whether a multicast group line was found, the lazily allocated message body
(`none` when no body line ever appeared), and the problem string of an
early abort (`goto nla_put_failure` with the emitter marked). -/
structure WLoopRes where
  nogroups : Bool
  msg : Option (List OutAttr)
  abortProblem : Option String

/-- Environment of the outbound path: multicast-group resolution
(`lustre_netlink_add_group`), send results, libnl error strings, and the
emitter's best-indent (libyaml defaults it to 2). -/
structure OutEnv where
  resolveGroup : String → Bool
  sendAutoRc : Int
  sendSimpleRc : Int
  geterror : Int → String
  bestIndent : Nat

mutual

/-- The top of the `while (entry && strcmp(line = strsep(&entry, "\n"), ""))`
loop of `yaml_netlink_write_handler` (line 1137): the loop ends on exhausted
text or an empty line (the terminal write). -/
def writeLoopTop (env : OutEnv) (fuel : Nat) (entry : Option (List Char))
    (indent fmt : Nat) (nogroups : Bool) (msg : Option (List OutAttr)) :
    Option WLoopRes :=
  match fuel with
  | 0 => none
  | f + 1 =>
    match entry with
    | none => some ⟨nogroups, msg, none⟩
    | some e =>
      let (line, entry') := strsep e '\n'
      if line.isEmpty then some ⟨nogroups, msg, none⟩
      else processLine env f line entry' indent fmt nogroups msg
termination_by structural fuel

/-- One line of the write-handler loop (lines 1138-1210), including the
`already_have_line` re-entry: document markers are skipped; an unindented
`key:` line resolves the multicast group (an unresolvable group aborts with
a writer error) and hands any same-line flow content to the body path; any
other line is body content — the message is lazily allocated, containers
recurse through `yaml_create_nested_list`, scalars append a string
attribute at the current indent. -/
def processLine (env : OutEnv) (fuel : Nat) (line : List Char)
    (entry : Option (List Char)) (indent fmt : Nat) (nogroups : Bool)
    (msg : Option (List OutAttr)) : Option WLoopRes :=
  match fuel with
  | 0 => none
  | f + 1 =>
    if line = ('-' :: '-' :: ['-']) || line = ('.' :: '.' :: ['.']) then
      writeLoopTop env f entry indent fmt nogroups msg
    else if line.headD '\x00' ≠ ' ' && line.headD '\x00' ≠ '-' then
      match findFrom line 0 ':' with
      | none => writeLoopTop env f entry indent fmt nogroups msg
      | some ci =>
        if !env.resolveGroup (String.mk (line.take ci)) then
          some ⟨nogroups, msg, some "Netlink group does not exist"⟩
        else
          let after := line.drop (ci + 2)
          if after.contains '\x7b' || after.contains '[' then
            complicatedStep env f after entry indent fmt false msg
          else writeLoopTop env f entry indent fmt false msg
    else complicatedStep env f line entry indent fmt nogroups msg
termination_by structural fuel

/-- The `complicated:` body branch of the write handler (lines 1167-1209). -/
def complicatedStep (env : OutEnv) (fuel : Nat) (line : List Char)
    (entry : Option (List Char)) (indent fmt : Nat) (nogroups : Bool)
    (msg : Option (List OutAttr)) : Option WLoopRes :=
  match fuel with
  | 0 => none
  | f + 1 =>
    let msgAttrs := msg.getD []
    let (fmt', indent') := yaml_format_type env.bestIndent line indent fmt
    if fmt' != 0 then
      match yaml_create_nested_list env.bestIndent f line entry indent' fmt' with
      | none => none
      | some (attr, line', entry2, indent2) =>
        let msg' := some (msgAttrs ++ [attr])
        match line' with
        | some l => processLine env f l entry2 indent2 fmt' nogroups msg'
        | none => writeLoopTop env f entry2 indent2 fmt' nogroups msg'
    else
      let msg' := some (msgAttrs ++ [OutAttr.value (String.mk (line.drop indent'))])
      writeLoopTop env f entry indent' fmt' nogroups msg'
termination_by structural fuel

end

/-- What the outbound session observably did in one write-handler call. -/
structure OutRecord where
  aborted : Bool
  nogroups : Bool
  msgAttrs : Option (List OutAttr)
  problem : Option String
  sent : Option SendKind
  retOk : Bool

/-- The terminal phase of `yaml_netlink_write_handler` (lines 1213-1232): an
early abort skips everything (the emitter already carries its problem); a
run that found no multicast group marks the emitter errored and sends
nothing; otherwise the built message is sent (`nl_send_auto`), or, when no
body line ever allocated one, a command-only simple message is sent
(`genl_send_simple`); a negative send result marks the emitter.  The
handler's return value is success exactly when the emitter carries no
error. -/
def finalizeWrite (env : OutEnv) (r : WLoopRes) : OutRecord :=
  match r.abortProblem with
  | some p =>
    { aborted := true, nogroups := r.nogroups, msgAttrs := r.msg,
      problem := some p, sent := none, retOk := false }
  | none =>
    if r.nogroups then
      { aborted := false, nogroups := true, msgAttrs := r.msg,
        problem := some "Emitter contains no valid Netlink groups",
        sent := none, retOk := false }
    else
      match r.msg with
      | some attrs =>
        let problem := if env.sendAutoRc < 0 then some (env.geterror env.sendAutoRc) else none
        { aborted := false, nogroups := false, msgAttrs := r.msg,
          problem := problem, sent := some (.auto attrs), retOk := problem.isNone }
      | none =>
        let problem := if env.sendSimpleRc < 0 then some (env.geterror env.sendSimpleRc) else none
        { aborted := false, nogroups := false, msgAttrs := none,
          problem := problem, sent := some .simple, retOk := problem.isNone }

/-- `yaml_netlink_write_handler` (lines 1123-1233): quotation preprocessing,
the line loop, then the terminal send phase.  `none` only on fuel
exhaustion or on the quotation loop's undefined behaviour. -/
def yaml_netlink_write_handler (env : OutEnv) (fuel : Nat) (buffer : List Char) :
    Option OutRecord :=
  match yaml_quotation_handling fuel buffer with
  | none => none
  | some b =>
    match writeLoopTop env fuel (some b) 0 0 true none with
    | none => none
    | some r => some (finalizeWrite env r)

/-! ## Concrete scenarios -/

/-- A fresh inbound session, as right after `yaml_parser_set_input_netlink`. -/
def sess0 : Session :=
  { root := none, cur := none, complete := false, errmsg := none,
    parserError := false, indent := 0 }

/-- A session whose stream has completed. -/
def sessDone : Session := { sess0 with complete := true }

/-- A concrete transport environment for the inbound scenarios. -/
def env0 : NlEnv :=
  { translateErr := fun _ => "Invalid input data or parameter",
    geterror := fun _ => "Receive failure" }

/-- The S1 schema key at index 1: the group label `net`, block mapping. -/
def s1key1 : LnKeyProps :=
  { lkp_key_format := LNKF_MAPPING, lkp_data_type := NLA_NUL_STRING,
    lkp_values := some "net" }

/-- The S1 schema key at index 2: the scalar `mtu`, unsigned 32-bit. -/
def s1key2 : LnKeyProps :=
  { lkp_key_format := 0, lkp_data_type := NLA_U32, lkp_values := some "mtu" }

/-- The S1 schema tree: one level, two user keys. -/
def s1root : YamlNlNode := .mk 3 [default, s1key1, s1key2] []

/-- The S1 schema as key records of a schema message (`list_size = 2` in the
first record allocates `maxattr = 3`). -/
def s1recs : List ScalarRec :=
  [.mk (some 2) (some 1) (some NLA_NUL_STRING) (some LNKF_MAPPING) (some "net") none,
   .mk none (some 2) (some NLA_U32) none (some "mtu") none]

/-- The S1 value batch: attribute #2 = 9000, nothing else. -/
def s1attrs : List (Option NlaValue) := [none, none, some (.u32 9000)]

/-- A fresh 16 KiB staging buffer (libyaml hands the reader a buffer of this
order; only its size matters here). -/
def s1start : WriteSt := { buf := [], pos := 0, size := 16384, indent := 0 }

/-- An empty write state at capacity accounting zero (recomputed per value
message by `yaml_netlink_msg_parse`). -/
def st0 : WriteSt := { buf := [], pos := 0, size := 0, indent := 0 }

/-- The S1 schema message (multi flag set, not `NLMSG_DONE`). -/
def s1schemaMsg : DispatchMsg := .normal (.create true (some s1recs) true false)

/-- The S1 value-batch message (multi flag set, not `NLMSG_DONE`). -/
def s1valueMsg : DispatchMsg := .normal (.values true s1attrs true false)

/-- The session after dispatching the S1 schema message to a fresh session
(the root tree cached, cursor reset to it). -/
def sessAfterSchema : Session :=
  { root := some s1root, cur := some s1root, complete := false, errmsg := none,
    parserError := false, indent := 0 }

/-- The session after additionally dispatching the S1 value batch (the
schema tree is read, not changed, by value processing here). -/
def sessAfterValues : Session :=
  { root := some s1root, cur := some s1root, complete := false, errmsg := none,
    parserError := false, indent := 0 }

/-- The write state after the S1 value batch. -/
def stAfterValues : WriteSt :=
  { buf := "net:\n  mtu: 9000\n".data, pos := 17, size := 16377, indent := 2 }

/-- The S5 terminal message: a netlink error with extended-ack text
`"invalid nid"`. -/
def s5term : TermMsg :=
  { isError := true, ackTlvs := true, errCode := -22, extack := some "invalid nid" }

/-- A plain `NLMSG_DONE` terminal message with a zero status payload. -/
def tmDone : TermMsg :=
  { isError := false, ackTlvs := false, errCode := 0, extack := none }

/-- A terminal error without extended-ack TLVs. -/
def tmErrPlain : TermMsg :=
  { isError := true, ackTlvs := false, errCode := -22, extack := none }

/-- A one-node schema tree for the teardown scenarios. -/
def c4node : YamlNlNode := .mk 3 [default, s1key1, s1key2] []

/-- A session holding `c4node` as its cached schema. -/
def c4sess : Session := { sess0 with root := some c4node, cur := some c4node }

/-- The C7 flow schema: key 1 is a nested FLOW container named `k` whose
child level holds one unsigned scalar. -/
def c7flowRoot : YamlNlNode :=
  .mk 2 [default,
         { lkp_key_format := LNKF_FLOW, lkp_data_type := NLA_NESTED, lkp_values := some "k" }]
    [.mk 2 [default, { lkp_key_format := 0, lkp_data_type := NLA_U32, lkp_values := some "v" }] []]

/-- The C7 flow-sequence schema: as `c7flowRoot` but with the SEQUENCE bit
also set on the container key. -/
def c7seqRoot : YamlNlNode :=
  .mk 2 [default,
         { lkp_key_format := LNKF_FLOW + LNKF_SEQUENCE, lkp_data_type := NLA_NESTED,
           lkp_values := some "k" }]
    [.mk 2 [default, { lkp_key_format := 0, lkp_data_type := NLA_U32, lkp_values := some "v" }] []]

/-- The C7 value batch: one container element whose slot 1 is the scalar 7. -/
def c7attrs : List (Option NlaValue) := [none, some (.nested [[none, some (.u32 7)]])]

/-- A schema node violating invariant 2: its only user key is nested-typed
(and named), but the node has no child. -/
def c10badNode : YamlNlNode :=
  .mk 2 [default,
         { lkp_key_format := 0, lkp_data_type := NLA_NESTED, lkp_values := some "x" }] []

/-- A concrete outbound environment: every group resolves, both sends
succeed. -/
def outEnv0 : OutEnv :=
  { resolveGroup := fun _ => true, sendAutoRc := 0, sendSimpleRc := 0,
    geterror := fun _ => "Send failure", bestIndent := 2 }

/-- A fallback outbound record for the extraction helpers. -/
def outRecDefault : OutRecord :=
  { aborted := false, nogroups := false, msgAttrs := none, problem := none,
    sent := none, retOk := false }

/-- The write-handler outcome on an empty document (no group line at all). -/
def c9rec1 : OutRecord :=
  match yaml_netlink_write_handler outEnv0 100 [] with
  | some r => r
  | none => outRecDefault

/-- An outbound document consisting of a group line and the terminal empty
line, with no body. -/
def c9buf2 : List Char := ('n' :: 'e' :: 't' :: ':' :: '\n' :: ['\n'])

/-- The write-handler outcome on `c9buf2`. -/
def c9rec2 : OutRecord :=
  match yaml_netlink_write_handler outEnv0 100 c9buf2 with
  | some r => r
  | none => outRecDefault

/-! ## Claim theorems -/

/-- C1: for the S1 schema (one level; key 1 `net`, nul-string, MAPPING;
key 2 `mtu`, u32, format 0), processing the value batch `{attr#2 = 9000}`
writes exactly the YAML text `"net:\n  mtu: 9000\n"` into the caller's
buffer; moreover the S1 key records build exactly that schema tree. -/
theorem c1_s1_scalar_echo :
    yaml_parse_value_list 100 s1start s1root s1attrs s1key1 true
      = .ok ({ buf := "net:\n  mtu: 9000\n".data, pos := 17, size := 16377, indent := 2 },
             s1key1, s1root)
    ∧ yaml_parse_key_list 100 s1recs none = (.ok, some s1root) :=
  ⟨rfl, rfl⟩

/-- C2: the reader callback returns `(0, ok)` when the session's completion
flag is already set (whatever the receive outcome), and returns `(0, ok)`
when the transport receive reports an interruption; in both cases the
session is returned unchanged, so no error is recorded on the session or
the parser. -/
theorem c2_reader_zero_ok (env : NlEnv) (fuel cap : Nat) (s : Session) (recv : RecvOutcome) :
    (s.complete = true →
      yaml_netlink_read_handler env fuel s cap recv = .ok (s, some 0, true))
    ∧ yaml_netlink_read_handler env fuel s cap .intr = .ok (s, some 0, true) := by
  constructor
  · intro h
    unfold yaml_netlink_read_handler
    simp [h]
  · unfold yaml_netlink_read_handler
    by_cases h : s.complete = true <;> simp [h]

/-- Witness for C2: a completed session and a fresh session under an
interrupt, at concrete inputs. -/
theorem c2_reader_zero_ok_witness :
    yaml_netlink_read_handler env0 1 sessDone 16 (.msgs []) = .ok (sessDone, some 0, true)
    ∧ yaml_netlink_read_handler env0 1 sess0 16 .intr = .ok (sess0, some 0, true) :=
  ⟨(c2_reader_zero_ok env0 1 16 sessDone (.msgs [])).1 rfl,
   (c2_reader_zero_ok env0 1 16 sess0 .intr).2⟩

/-- C6 counterexample: in the S1 run 17 bytes are written (the pointer
advances from 0 to 17) while the remaining-capacity counter drops only from
16384 to 16377 — the scalar fragment `"9000\n"` *increased* the counter by
its length (`*size += len`, line 708), so the transcoder does not decrease
remaining capacity by the size of every written fragment. -/
theorem c6_counterexample :
    (yaml_parse_value_list 100 s1start s1root s1attrs s1key1 true).toOption.map
        (fun r => (r.1.pos, r.1.size)) = some (17, 16377)
    ∧ (16377 : Int) ≠ s1start.size - 17 :=
  ⟨rfl, by decide⟩

/-- C7: a flow container holding the single scalar entry 7 renders as
`"k: { 7 }\n"` — the entry is written with its trailing `", "` and the close
overwrites that separator with `" }"` (`" ]"` with the sequence bit) plus a
newline — never as `"k: {7,}\n"`. -/
theorem c7_flow_single_entry :
    yaml_parse_value_list 100 s1start c7flowRoot c7attrs
        (c7flowRoot.keys.getD 1 default) true
      = .ok ({ buf := ('k' :: ':' :: ' ' :: '\x7b' :: ' ' :: '7' :: ' ' :: '\x7d' :: ['\n']),
               pos := 9, size := 16381, indent := 0 },
             c7flowRoot.keys.getD 1 default, c7flowRoot)
    ∧ yaml_parse_value_list 100 s1start c7seqRoot c7attrs
        (c7seqRoot.keys.getD 1 default) true
      = .ok ({ buf := ('k' :: ':' :: ' ' :: '[' :: ' ' :: '7' :: ' ' :: ']' :: ['\n']),
               pos := 9, size := 16381, indent := 0 },
             c7seqRoot.keys.getD 1 default, c7seqRoot) :=
  ⟨rfl, rfl⟩

/-- C8 counterexample: for the line `"- a"` at running offset 4 the first
two characters after the indent are `"- "`, yet `yaml_format_type`
classifies the line as END — the indentation-decrease check fires before
the sequence check — where the claim's ordering yields SEQUENCE. -/
theorem c8_counterexample :
    yaml_format_type 2 ('-' :: ' ' :: ['a']) 4 0 = (LNKF_END, 2)
    ∧ yaml_format_type_claim ('-' :: ' ' :: ['a']) 4 0 = (LNKF_SEQUENCE, 2)
    ∧ LNKF_END ≠ LNKF_SEQUENCE :=
  ⟨rfl, rfl, by decide⟩

/-- C6 amended: indent, key and container-open fragments (`pushFrag`)
advance the write pointer by their length and decrease remaining capacity by
the same amount; the scalar-with-separator fragment (`sepStep` with a
positive `len`) advances the pointer by the scalar plus separator width but
*increases* the capacity counter by that amount; the unwind (`sepStep` with
a negative formatter result — the only trigger, capacity exhaustion does not
produce one) reverts the pointer by the indentation prefix plus two and
decreases the counter by the same; the flow close advances the pointer by
one and decreases the counter by one. -/
theorem c6_amended (st : WriteSt) (s : List Char) (len len2 : Int) (flow seq : Bool)
    (hpos : 0 < len) (hneg : len2 < 0) :
    ((pushFrag st s).pos = st.pos + s.length ∧ (pushFrag st s).size = st.size - s.length)
    ∧ ((sepStep st len flow).pos = st.pos + len.toNat + (if flow then 2 else 1)
       ∧ (sepStep st len flow).size = st.size + len + (if flow then 2 else 1))
    ∧ ((sepStep st len2 flow).pos = st.pos - (st.indent + 2)
       ∧ (sepStep st len2 flow).size = st.size - (st.indent + 2))
    ∧ ((flowClose st seq).pos = st.pos + 1 ∧ (flowClose st seq).size = st.size - 1) := by
  refine ⟨⟨rfl, rfl⟩, ?_, ?_, ⟨rfl, rfl⟩⟩
  · unfold sepStep
    rw [if_pos hpos]
    cases flow <;> simp <;> omega
  · unfold sepStep
    rw [if_neg (by omega : ¬ (0 < len2)), if_pos hneg]
    exact ⟨rfl, rfl⟩

/-- Witness for C6 amended at concrete inputs. -/
theorem c6_amended_witness :
    ((pushFrag s1start ('a' :: ['b'])).pos = s1start.pos + ('a' :: ['b']).length
      ∧ (pushFrag s1start ('a' :: ['b'])).size = s1start.size - ('a' :: ['b']).length)
    ∧ ((sepStep s1start 3 true).pos = s1start.pos + (3 : Int).toNat + (if true then 2 else 1)
      ∧ (sepStep s1start 3 true).size = s1start.size + 3 + (if true then 2 else 1))
    ∧ ((sepStep s1start (-1) true).pos = s1start.pos - (s1start.indent + 2)
      ∧ (sepStep s1start (-1) true).size = s1start.size - (s1start.indent + 2))
    ∧ ((flowClose s1start false).pos = s1start.pos + 1
      ∧ (flowClose s1start false).size = s1start.size - 1) :=
  c6_amended s1start ('a' :: ['b']) 3 (-1) true false (by decide) (by decide)

/-- C8 amended: the classifier checks, in order: FLOW when the line holds a
brace or bracket; END when the indentation decreased (this check precedes
the sequence check; the running offset steps back by the emitter's
best-indent); SEQUENCE when the first two characters after the indent are
`"- "` (the offset advancing to the line indent plus best-indent); MAPPING
when the indentation changed and the previous classification was not
already MAPPING; otherwise a plain scalar, the offset still following an
indentation change. -/
theorem c8_amended (best : Nat) (line : List Char) (offset prev : Nat) :
    yaml_format_type best line offset prev = yaml_format_type_amended best line offset prev := by
  simp only [yaml_format_type, yaml_format_type_amended]
  by_cases h1 : (line.contains '\x7b' || line.contains '[') = true
  · simp only [h1, if_true]
  · simp only [h1, Bool.false_eq_true, if_false]
    by_cases h2 : indent_level line < offset
    · simp only [if_pos h2]
    · simp only [if_neg h2]
      by_cases h3 : (line.drop (indent_level line)).take 2 = ['-', ' ']
      · simp only [if_pos h3]
      · simp only [if_neg h3]
        by_cases h4 : offset = indent_level line
        · rw [if_neg (by omega : ¬ offset ≠ indent_level line),
              if_neg (show ¬(indent_level line ≠ offset ∧ prev ≠ LNKF_MAPPING) from
                fun h => h.1 h4.symm),
              if_neg (by omega : ¬ indent_level line ≠ offset)]
        · rw [if_pos (by omega : offset ≠ indent_level line)]
          by_cases h5 : prev = LNKF_MAPPING
          · rw [if_neg (show ¬ prev ≠ LNKF_MAPPING from fun h => h h5),
                if_neg (show ¬(indent_level line ≠ offset ∧ prev ≠ LNKF_MAPPING) from
                  fun h => h.2 h5),
                if_pos (show indent_level line ≠ offset by omega)]
          · rw [if_pos (show prev ≠ LNKF_MAPPING from h5),
                if_pos (show indent_level line ≠ offset ∧ prev ≠ LNKF_MAPPING from
                  ⟨by omega, h5⟩)]

/-- C3: a terminal message carrying a kernel-reported error stores a
human-readable string on the session — the extended-ack text when present,
otherwise the translation of the error code — marks the parser errored, the
reader invocation delivering it returns fail without reporting bytes, and
`yaml_parser_get_reader_error` returns the stored string. -/
theorem c3_terminal_error (env : NlEnv) (fuel cap : Nat) (s : Session) (tm : TermMsg)
    (hc : s.complete = false)
    (he : ((tm.isError || tm.ackTlvs) && tm.errCode != 0) = true) :
    yaml_netlink_read_handler env fuel s cap (.msgs [.finish tm])
      = .ok ({ s with errmsg := some (errStringOf env tm), parserError := true,
                      complete := true }, none, false)
    ∧ yaml_parser_get_reader_error
        (some { s with errmsg := some (errStringOf env tm), parserError := true,
                       complete := true }) = some (errStringOf env tm)
    ∧ (∀ t, tm.extack = some t → tm.ackTlvs = true → errStringOf env tm = t)
    ∧ (tm.ackTlvs = false → errStringOf env tm = env.translateErr tm.errCode) := by
  refine ⟨?_, rfl, ?_, ?_⟩
  · unfold yaml_netlink_read_handler dispatchMsgs yaml_netlink_msg_complete
    simp [hc, he, bind, Except.bind]
  · intro t ht ha
    unfold errStringOf
    rw [ha, ht]
  · intro ha
    unfold errStringOf
    rw [ha]

/-- Witness for C3: scenario S5, a terminal error with ext-ack text
`"invalid nid"`. -/
theorem c3_terminal_error_witness :
    yaml_netlink_read_handler env0 100 sess0 1024 (.msgs [.finish s5term])
      = .ok ({ sess0 with errmsg := some (errStringOf env0 s5term), parserError := true,
                          complete := true }, none, false)
    ∧ errStringOf env0 s5term = "invalid nid" :=
  ⟨(c3_terminal_error env0 100 1024 sess0 s5term rfl rfl).1,
   (c3_terminal_error env0 100 1024 sess0 s5term rfl rfl).2.2.1 "invalid nid" rfl rfl⟩

/-- Every schema node counts itself. -/
theorem one_le_nodeSize (n : YamlNlNode) : 1 ≤ nodeSize n := by
  cases n with
  | mk m ks cs => simp [nodeSize]

/-- With sufficient fuel the teardown walk is total: `cleanup_children`
reports whether the node was childless together with the exact number of
descendant nodes freed inside the call (the node itself is freed by the
caller), and the child loop frees every node of the forest. -/
theorem cleanup_total (fuel : Nat) :
    (∀ n : YamlNlNode, 3 * nodeSize n ≤ fuel →
      cleanup_children fuel n = some (n.children.isEmpty, sizeList n.children))
    ∧ (∀ cs : List YamlNlNode, 3 * sizeList cs + 1 ≤ fuel →
      cleanup_loop fuel cs = some (false, sizeList cs)) := by
  induction fuel with
  | zero =>
    constructor
    · intro n h
      have := one_le_nodeSize n
      omega
    · intro cs h
      omega
  | succ f ih =>
    constructor
    · intro n h
      cases n with
      | mk m ks cs =>
        cases cs with
        | nil => simp [cleanup_children, YamlNlNode.children, sizeList]
        | cons c cs' =>
          have hsz : nodeSize (YamlNlNode.mk m ks (c :: cs')) = 1 + sizeList (c :: cs') := by
            simp [nodeSize]
          simp only [cleanup_children, YamlNlNode.children, List.isEmpty_cons,
            Bool.false_eq_true, if_false]
          rw [ih.2 (c :: cs') (by omega)]
    · intro cs h
      cases cs with
      | nil => simp [cleanup_loop, sizeList]
      | cons c cs' =>
        have hcons : sizeList (c :: cs') = nodeSize c + sizeList cs' := by simp [sizeList]
        have hc1 := one_le_nodeSize c
        have h1 : 3 * nodeSize c ≤ f := by omega
        simp only [cleanup_loop]
        rw [ih.1 c h1]
        cases c with
        | mk m ks ccs =>
          have hns : nodeSize (YamlNlNode.mk m ks ccs) = 1 + sizeList ccs := by
            simp [nodeSize]
          cases ccs with
          | nil =>
            simp only [YamlNlNode.children, List.isEmpty_nil, sizeList]
            rw [ih.2 cs' (by simp [nodeSize] at hns; omega)]
            simp only [Option.some.injEq, Prod.mk.injEq, true_and]
            simp [sizeList, nodeSize]
          | cons d ds =>
            simp only [YamlNlNode.children, YamlNlNode.maxattr, YamlNlNode.keys,
              List.isEmpty_cons]
            have hstrip : sizeList (YamlNlNode.mk m ks [] :: cs') = 1 + sizeList cs' := by
              simp [sizeList, nodeSize]
            have hd := one_le_nodeSize d
            have hdd : sizeList (d :: ds) = nodeSize d + sizeList ds := by simp [sizeList]
            rw [ih.2 (YamlNlNode.mk m ks [] :: cs') (by rw [hstrip]; omega)]
            simp only [Option.some.injEq, Prod.mk.injEq, true_and]
            rw [hstrip]
            simp only [sizeList, nodeSize] at hcons ⊢
            omega

/-- C4 counterexample: on a kernel-error terminal message the schema tree is
*not* freed (the root survives, zero nodes released), while the same session
under a normal `NLMSG_DONE` does free it — so the claim that every final
message frees the subtree is false. -/
theorem c4_counterexample :
    (yaml_netlink_msg_complete env0 100 c4sess tmErrPlain).1.root = some c4node
    ∧ (yaml_netlink_msg_complete env0 100 c4sess tmErrPlain).2 = 0
    ∧ (yaml_netlink_msg_complete env0 100 c4sess tmDone).1.root = none :=
  ⟨rfl, rfl, rfl⟩

/-- C4 amended: on a *non-error* final message the entire schema subtree is
walked and freed (exactly `nodeSize` nodes released, the root dropped) and
the completion flag is set; on a kernel-error final message the completion
flag is also set but the tree is left in place and nothing is freed; in
either case every subsequent read returns zero bytes with success. -/
theorem c4_amended (env : NlEnv) (fuel cap : Nat) (s : Session) (tm : TermMsg)
    (r : YamlNlNode) (hr : s.root = some r) :
    ((((tm.isError || tm.ackTlvs) && tm.errCode != 0) = false →
        3 * nodeSize r ≤ fuel →
        yaml_netlink_msg_complete env fuel s tm
          = ({ s with root := none, cur := none, complete := true }, nodeSize r)))
    ∧ ((((tm.isError || tm.ackTlvs) && tm.errCode != 0) = true →
        (yaml_netlink_msg_complete env fuel s tm).1.root = some r
        ∧ (yaml_netlink_msg_complete env fuel s tm).1.complete = true
        ∧ (yaml_netlink_msg_complete env fuel s tm).2 = 0))
    ∧ (∀ (s' : Session) (recv : RecvOutcome), s'.complete = true →
        yaml_netlink_read_handler env fuel s' cap recv = .ok (s', some 0, true)) := by
  refine ⟨?_, ?_, ?_⟩
  · intro he hfuel
    unfold yaml_netlink_msg_complete
    simp only [he, Bool.false_eq_true, if_false, hr]
    rw [(cleanup_total fuel).1 r hfuel]
    cases r with
    | mk m ks cs =>
      simp only [Prod.mk.injEq, and_true, true_and, YamlNlNode.children, nodeSize]
      omega
  · intro he
    unfold yaml_netlink_msg_complete
    simp [he, hr]
  · intro s' recv h
    unfold yaml_netlink_read_handler
    simp [h]

/-- Witness for C4 amended at concrete inputs. -/
theorem c4_amended_witness :
    yaml_netlink_msg_complete env0 100 c4sess tmDone
      = ({ c4sess with root := none, cur := none, complete := true }, nodeSize c4node)
    ∧ (yaml_netlink_msg_complete env0 100 c4sess tmErrPlain).1.root = some c4node
    ∧ yaml_netlink_read_handler env0 100 sessDone 16 .intr = .ok (sessDone, some 0, true) :=
  ⟨(c4_amended env0 100 16 c4sess tmDone c4node rfl).1 rfl (by decide),
   ((c4_amended env0 100 16 c4sess tmErrPlain c4node rfl).2.1 rfl).1,
   (c4_amended env0 100 16 c4sess tmDone c4node rfl).2.2 sessDone .intr rfl⟩

/-- C5 counterexample: after the S1 session has consumed a value batch, a
further schema-create message is *not* skipped — the callback reports
`NL_OK`, records no diagnostic, leaves the session (root and cursor) exactly
as it was — while `yaml_parse_key_list` does build a (never linked) schema
node for it. -/
theorem c5_counterexample :
    dispatchMsgs env0 100 16384 [s1schemaMsg] sess0 st0 = .ok (sessAfterSchema, st0)
    ∧ dispatchMsgs env0 100 16384 [s1valueMsg] sessAfterSchema st0
        = .ok (sessAfterValues, stAfterValues)
    ∧ yaml_netlink_msg_parse 100 16384 sessAfterValues stAfterValues
        (.create true (some s1recs) true false)
      = .ok (sessAfterValues, stAfterValues, .ok)
    ∧ ((yaml_parse_key_list 100 s1recs none).2).isSome = true
    ∧ sessAfterValues.root = some s1root :=
  ⟨rfl, rfl, rfl, rfl, rfl⟩

/-- C5 amended: the schema is never sealed.  A create-flagged message
arriving when the session already holds a root is processed normally (no
skip, no diagnostic): the nodes it builds are never linked into the cached
tree, and the session — root, cursor, error string, completion flag — is
returned unchanged, the cursor still the existing root. -/
theorem c5_amended (fuel cap : Nat) (s : Session) (st : WriteSt) (r : YamlNlNode)
    (parseOk : Bool) (recs : Option (List ScalarRec)) (multi done : Bool)
    (hr : s.root = some r) (hcur : s.cur = some r) :
    ∃ status, yaml_netlink_msg_parse fuel cap s st (.create parseOk recs multi done)
      = .ok (s, st, status) := by
  obtain ⟨sroot, scur, scomp, serr, sperr, sind⟩ := s
  dsimp only at hr hcur
  subst hr
  subst hcur
  unfold yaml_netlink_msg_parse
  cases parseOk
  · exact ⟨.skip, rfl⟩
  · cases recs with
    | none => exact ⟨endStatus multi done, rfl⟩
    | some rs =>
      cases hkl : yaml_parse_key_list fuel rs none with
      | mk kst built =>
        cases kst
        · exact ⟨endStatus multi done, by simp [hkl]⟩
        · exact ⟨.stop, by simp [hkl]⟩
        · exact ⟨.fuelOut, by simp [hkl]⟩

/-- Witness for C5 amended: the S1 session after its value batch. -/
theorem c5_amended_witness :
    ∃ status, yaml_netlink_msg_parse 100 16384 sessAfterValues stAfterValues
        (.create true (some s1recs) true false)
      = .ok (sessAfterValues, stAfterValues, status) :=
  c5_amended 100 16384 sessAfterValues stAfterValues s1root true (some s1recs) true false
    rfl rfl

/-- Key tables agree with themselves. -/
theorem keyTypesEq_refl (ks : List LnKeyProps) : keyTypesEq ks ks := fun _ => rfl

/-- `keyTypesEq` composes. -/
theorem keyTypesEq_trans {a b c : List LnKeyProps} (h1 : keyTypesEq a b)
    (h2 : keyTypesEq b c) : keyTypesEq a c :=
  fun j => (h1 j).trans (h2 j)

/-- Replacing one slot with a descriptor of the same data type preserves the
type profile. -/
theorem keyTypesEq_set (ks : List LnKeyProps) (i : Nat) (p : LnKeyProps)
    (h : p.lkp_data_type = (ks.getD i default).lkp_data_type) :
    keyTypesEq (ks.set i p) ks := by
  induction ks generalizing i with
  | nil => intro j; rfl
  | cons a as ih =>
    cases i with
    | zero =>
      intro j
      cases j with
      | zero => simpa [List.getD_cons_zero] using h
      | succ j' => simp [List.getD_cons_succ]
    | succ i' =>
      intro j
      cases j with
      | zero => simp [List.getD_cons_zero]
      | succ j' =>
        have := ih i' (by simpa [List.getD_cons_succ] using h) j'
        simpa [List.getD_cons_succ] using this

/-- `countNested` over a cons of indices. -/
theorem countNested_cons (ks : List LnKeyProps) (i : Nat) (rest : List Nat) :
    countNested ks (i :: rest)
      = (if (ks.getD i default).lkp_data_type = NLA_NESTED then 1 else 0)
        + countNested ks rest := by
  unfold countNested
  simp only [List.filter_cons]
  by_cases h : (ks.getD i default).lkp_data_type = NLA_NESTED
  · simp only [h, beq_self_eq_true, if_true, List.length_cons]
    omega
  · have hb : ((ks.getD i default).lkp_data_type == NLA_NESTED) = false := by
      simpa using h
    simp only [hb, Bool.false_eq_true, if_false]
    rw [if_neg h]
    omega

/-- `countNested` only looks at data types. -/
theorem countNested_congr {ks1 ks2 : List LnKeyProps} (h : keyTypesEq ks1 ks2)
    (idxs : List Nat) : countNested ks1 idxs = countNested ks2 idxs := by
  induction idxs with
  | nil => rfl
  | cons i rest ih =>
    rw [countNested_cons, countNested_cons, h i, ih]

/-- Members of an invariant-satisfying forest satisfy the invariant. -/
theorem schemaInvList_get? {cs : List YamlNlNode} (h : schemaInvList cs = true)
    {k : Nat} {c : YamlNlNode} (hk : cs.get? k = some c) : schemaInvB c = true := by
  induction cs generalizing k with
  | nil => cases hk
  | cons a as ih =>
    simp only [schemaInvList, Bool.and_eq_true] at h
    cases k with
    | zero =>
      simp only [List.get?] at hk
      injection hk with hk
      exact hk ▸ h.1
    | succ k' =>
      simp only [List.get?] at hk
      exact ih h.2 hk

/-- Replacing a member with an invariant-satisfying node preserves the
forest invariant. -/
theorem schemaInvList_set {cs : List YamlNlNode} (h : schemaInvList cs = true)
    {c' : YamlNlNode} (hc : schemaInvB c' = true) (k : Nat) :
    schemaInvList (cs.set k c') = true := by
  induction cs generalizing k with
  | nil => simpa using h
  | cons a as ih =>
    simp only [schemaInvList, Bool.and_eq_true] at h
    cases k with
    | zero => simp [List.set, schemaInvList, hc, h.2]
    | succ k' => simp [List.set, schemaInvList, h.1, ih h.2]

/-- `indentKeyPhase` only touches the write state, `len` and the local
mapping copy. -/
theorem indentKeyPhase_fields (ls : ValueLoopSt) (ki : LnKeyProps) :
    (indentKeyPhase ls ki).keys = ls.keys ∧ (indentKeyPhase ls ki).children = ls.children
    ∧ (indentKeyPhase ls ki).childIdx = ls.childIdx
    ∧ (indentKeyPhase ls ki).parent = ls.parent := by
  dsimp only [indentKeyPhase]
  split_ifs <;> exact ⟨rfl, rfl, rfl, rfl⟩

/-- `labelReplace` only replaces the parent's stored string. -/
theorem labelReplace_fields (ls : ValueLoopSt) (attr : Option NlaValue) :
    (labelReplace ls attr).keys = ls.keys ∧ (labelReplace ls attr).children = ls.children
    ∧ (labelReplace ls attr).childIdx = ls.childIdx
    ∧ (labelReplace ls attr).parent.lkp_data_type = ls.parent.lkp_data_type := by
  unfold labelReplace
  cases attr with
  | none => exact ⟨rfl, rfl, rfl, rfl⟩
  | some a =>
    cases h : ls.parent.lkp_values with
    | none => simp [h]
    | some v => simp [h]

/-- Inverting a monadic bind over `Except PErr` that produced an error. -/
theorem bind_eq_error {α β : Type} {e : Except PErr α} {g : α → Except PErr β} {er : PErr}
    (h : e >>= g = Except.error er) :
    e = Except.error er ∨ ∃ x, e = Except.ok x ∧ g x = Except.error er := by
  cases e with
  | error e2 =>
    have h2 : (Except.error e2 : Except PErr β) = Except.error er := h
    left
    injection h2 with h3
    rw [h3]
  | ok x => right; exact ⟨x, rfl, h⟩

/-- Inverting a monadic bind over `Except PErr` that produced a value. -/
theorem bind_eq_ok {α β : Type} {e : Except PErr α} {g : α → Except PErr β} {b : β}
    (h : e >>= g = Except.ok b) :
    ∃ x, e = Except.ok x ∧ g x = Except.ok b := by
  cases e with
  | error e2 =>
    have h2 : (Except.error e2 : Except PErr β) = Except.ok b := h
    cases h2
  | ok x => exact ⟨x, rfl, h⟩

/-- `pure` produces exactly its argument. -/
theorem pure_eq_ok {α : Type} {x y : α} (h : (pure x : Except PErr α) = Except.ok y) :
    x = y := by
  have h2 : Except.ok x = Except.ok y := h
  injection h2

/-- `pure` never produces an error. -/
theorem pure_ne_error {α : Type} {x : α} {er : PErr}
    (h : (pure x : Except PErr α) = Except.error er) : False := by
  have h2 : Except.ok x = Except.error er := h
  cases h2

/-- Error results determine the error code. -/
theorem error_eq_error {er er2 : PErr}
    (h : (Except.error er : Except PErr ValueLoopSt) = Except.error er2) : er = er2 := by
  injection h

/-- `indentKeyPhase` leaves the key table unchanged. -/
theorem indentKeyPhase_keys (ls : ValueLoopSt) (ki : LnKeyProps) :
    (indentKeyPhase ls ki).keys = ls.keys := (indentKeyPhase_fields ls ki).1

/-- `indentKeyPhase` leaves the child list unchanged. -/
theorem indentKeyPhase_children (ls : ValueLoopSt) (ki : LnKeyProps) :
    (indentKeyPhase ls ki).children = ls.children := (indentKeyPhase_fields ls ki).2.1

/-- `indentKeyPhase` leaves the child cursor unchanged. -/
theorem indentKeyPhase_childIdx (ls : ValueLoopSt) (ki : LnKeyProps) :
    (indentKeyPhase ls ki).childIdx = ls.childIdx := (indentKeyPhase_fields ls ki).2.2.1

/-- `indentKeyPhase` leaves the parent descriptor unchanged. -/
theorem indentKeyPhase_parent (ls : ValueLoopSt) (ki : LnKeyProps) :
    (indentKeyPhase ls ki).parent = ls.parent := (indentKeyPhase_fields ls ki).2.2.2

/-- `labelReplace` leaves the key table unchanged. -/
theorem labelReplace_keys (ls : ValueLoopSt) (attr : Option NlaValue) :
    (labelReplace ls attr).keys = ls.keys := (labelReplace_fields ls attr).1

/-- `labelReplace` leaves the child list unchanged. -/
theorem labelReplace_children (ls : ValueLoopSt) (attr : Option NlaValue) :
    (labelReplace ls attr).children = ls.children := (labelReplace_fields ls attr).2.1

/-- `labelReplace` leaves the child cursor unchanged. -/
theorem labelReplace_childIdx (ls : ValueLoopSt) (attr : Option NlaValue) :
    (labelReplace ls attr).childIdx = ls.childIdx := (labelReplace_fields ls attr).2.2.1

/-- `labelReplace` preserves the parent descriptor's data type. -/
theorem labelReplace_ptype (ls : ValueLoopSt) (attr : Option NlaValue) :
    (labelReplace ls attr).parent.lkp_data_type = ls.parent.lkp_data_type :=
  (labelReplace_fields ls attr).2.2.2

/-- One slot iteration is `noChild`-safe when the loop invariant provides a
child for a nested-typed slot, and it preserves the schema-shape bookkeeping:
key types, child-list length and invariant, parent type, and it consumes at
most one child (exactly when the slot is nested-typed). -/
theorem valueStep_safe (f : Nat)
    (ihR : ∀ (i : Nat) (elems : List (List (Option NlaValue))) (next : YamlNlNode)
        (ls : ValueLoopSt), schemaInvB next = true →
        (elemLoop f i elems next ls ≠ .error .noChild
         ∧ ∀ ls' next', elemLoop f i elems next ls = .ok (ls', next') →
             keyTypesEq ls'.keys ls.keys ∧ ls'.children = ls.children
             ∧ ls'.childIdx = ls.childIdx ∧ ls'.parent = ls.parent
             ∧ schemaInvB next' = true)) :
    ∀ (i : Nat) (attrs : List (Option NlaValue)) (atRoot : Bool) (ls : ValueLoopSt),
      ((ls.keys.getD i default).lkp_data_type = NLA_NESTED →
        ls.childIdx < ls.children.length) →
      schemaInvList ls.children = true →
      (valueStep (f + 1) i attrs atRoot ls ≠ .error .noChild
       ∧ ∀ ls', valueStep (f + 1) i attrs atRoot ls = .ok ls' →
           keyTypesEq ls'.keys ls.keys
           ∧ ls'.children.length = ls.children.length
           ∧ schemaInvList ls'.children = true
           ∧ ls'.parent.lkp_data_type = ls.parent.lkp_data_type
           ∧ ls'.childIdx ≤ ls.childIdx
               + (if (ls.keys.getD i default).lkp_data_type = NLA_NESTED
                  then 1 else 0)) := by
  intro i attrs atRoot ls hbound hlist
  by_cases hc1 : ((attrs.getD i none).isNone
      && ((ls.keys.getD i default).lkp_values).isNone) = true
  · constructor
    · intro hcontra
      simp only [valueStep] at hcontra
      rw [if_pos hc1] at hcontra
      exact pure_ne_error hcontra
    · intro ls' hok
      simp only [valueStep] at hok
      rw [if_pos hc1] at hok
      have h := pure_eq_ok hok
      subst h
      exact ⟨keyTypesEq_refl _, rfl, hlist, rfl, Nat.le_add_right _ _⟩
  · by_cases ht8 : (ls.keys.getD i default).lkp_data_type = NLA_NESTED
    · have hlt := hbound ht8
      have hget : ls.children.get? ls.childIdx
          = some (ls.children.get ⟨ls.childIdx, hlt⟩) := List.get?_eq_get hlt
      have hnext : schemaInvB (ls.children.get ⟨ls.childIdx, hlt⟩) = true :=
        schemaInvList_get? hlist hget
      have hc2 : ¬((((ls.keys.getD i default).lkp_data_type != NLA_NUL_STRING
          && (ls.keys.getD i default).lkp_data_type != NLA_NESTED)
          && (attrs.getD i none).isNone) = true) := by
        simp only [ht8, bne_self_eq_false, Bool.and_false, Bool.false_and,
          Bool.false_eq_true, not_false_eq_true]
      have hc3 : ¬(((ls.keys.getD i default).lkp_data_type != NLA_NUL_STRING
          && (ls.keys.getD i default).lkp_data_type != NLA_NESTED) = true) := by
        simp only [ht8, bne_self_eq_false, Bool.and_false,
          Bool.false_eq_true, not_false_eq_true]
      have hc4 : ((ls.keys.getD i default).lkp_data_type == NLA_NESTED) = true := by
        simp only [ht8, beq_self_eq_true]
      cases hattr : attrs.getD i none with
      | none =>
        constructor
        · intro hcontra
          simp only [valueStep] at hcontra
          rw [if_neg hc1, if_neg hc2, if_neg hc3, if_pos hc4, hget] at hcontra
          dsimp only at hcontra
          rw [hattr] at hcontra
          dsimp only at hcontra
          exact pure_ne_error hcontra
        · intro ls' hok
          simp only [valueStep] at hok
          rw [if_neg hc1, if_neg hc2, if_neg hc3, if_pos hc4, hget] at hok
          dsimp only at hok
          rw [hattr] at hok
          dsimp only at hok
          have h := pure_eq_ok hok
          subst h
          refine ⟨keyTypesEq_refl _, rfl, hlist, rfl, ?_⟩
          rw [if_pos ht8]
      | some a =>
        constructor
        · intro hcontra
          simp only [valueStep] at hcontra
          rw [if_neg hc1, if_neg hc2, if_neg hc3, if_pos hc4, hget] at hcontra
          dsimp only at hcontra
          rw [hattr] at hcontra
          dsimp only at hcontra
          rcases bind_eq_error hcontra with he | ⟨⟨ls3, next2⟩, hx, hgx⟩
          · exact (ihR _ _ _ _ hnext).1 he
          · dsimp only at hgx
            exact pure_ne_error hgx
        · intro ls' hok
          simp only [valueStep] at hok
          rw [if_neg hc1, if_neg hc2, if_neg hc3, if_pos hc4, hget] at hok
          dsimp only at hok
          rw [hattr] at hok
          dsimp only at hok
          obtain ⟨⟨ls3, next2⟩, hx, hgx⟩ := bind_eq_ok hok
          have hE := (ihR _ _ _ _ hnext).2 ls3 next2 hx
          dsimp only at hgx
          have h := pure_eq_ok hgx
          subst h
          obtain ⟨hk, hch, hidx, hpar, hn2⟩ := hE
          refine ⟨hk, ?_, ?_, ?_, ?_⟩
          · show (ls3.children.set ls.childIdx next2).length = ls.children.length
            rw [List.length_set]
            rw [hch]
          · show schemaInvList (ls3.children.set ls.childIdx next2) = true
            rw [hch]
            exact schemaInvList_set hlist hn2 _
          · show ls3.parent.lkp_data_type = ls.parent.lkp_data_type
            rw [hpar]
          · show ls3.childIdx ≤ ls.childIdx + _
            rw [hidx, if_pos ht8]
    · by_cases ht10 : (ls.keys.getD i default).lkp_data_type = NLA_NUL_STRING
      · have hc2 : ¬((((ls.keys.getD i default).lkp_data_type != NLA_NUL_STRING
            && (ls.keys.getD i default).lkp_data_type != NLA_NESTED)
            && (attrs.getD i none).isNone) = true) := by
          simp only [ht10, bne_self_eq_false, Bool.false_and,
            Bool.false_eq_true, not_false_eq_true]
        have hc3 : ¬(((ls.keys.getD i default).lkp_data_type != NLA_NUL_STRING
            && (ls.keys.getD i default).lkp_data_type != NLA_NESTED) = true) := by
          simp only [ht10, bne_self_eq_false, Bool.false_and,
            Bool.false_eq_true, not_false_eq_true]
        have hc4 : ¬(((ls.keys.getD i default).lkp_data_type == NLA_NESTED) = true) := by
          rw [ht10]
          decide
        have hc5 : ((ls.keys.getD i default).lkp_data_type == NLA_NUL_STRING) = true := by
          simp only [ht10, beq_self_eq_true]
        have hfin : ∀ lsx : ValueLoopSt,
            lsx.keys = ls.keys → lsx.children = ls.children →
            lsx.childIdx = ls.childIdx → lsx.parent.lkp_data_type = ls.parent.lkp_data_type →
            keyTypesEq lsx.keys ls.keys
            ∧ lsx.children.length = ls.children.length
            ∧ schemaInvList lsx.children = true
            ∧ lsx.parent.lkp_data_type = ls.parent.lkp_data_type
            ∧ lsx.childIdx ≤ ls.childIdx
               + (if (ls.keys.getD i default).lkp_data_type = NLA_NESTED
                  then 1 else 0) := by
          intro lsx h1 h2 h3 h4
          refine ⟨h1 ▸ keyTypesEq_refl _, by rw [h2], by rw [h2]; exact hlist, h4, ?_⟩
          rw [h3]
          exact Nat.le_add_right _ _
        by_cases hi : i = 1
        · by_cases hroot : atRoot = true
          · cases hv : (ls.keys.getD i default).lkp_values with
            | none =>
              constructor
              · intro hcontra
                simp only [valueStep] at hcontra
                rw [if_neg hc1, if_neg hc2, if_neg hc3, if_neg hc4, if_pos hc5,
                    if_pos hi, if_pos hroot, hv] at hcontra
                dsimp only at hcontra
                cases error_eq_error hcontra
              · intro ls' hok
                simp only [valueStep] at hok
                rw [if_neg hc1, if_neg hc2, if_neg hc3, if_neg hc4, if_pos hc5,
                    if_pos hi, if_pos hroot, hv] at hok
                dsimp only at hok
                cases hok
            | some nm =>
              by_cases hlen : nm.length ≠ 0
              · constructor
                · intro hcontra
                  simp only [valueStep] at hcontra
                  rw [if_neg hc1, if_neg hc2, if_neg hc3, if_neg hc4, if_pos hc5,
                      if_pos hi, if_pos hroot, hv] at hcontra
                  dsimp only at hcontra
                  rw [if_pos hlen] at hcontra
                  exact pure_ne_error hcontra
                · intro ls' hok
                  simp only [valueStep] at hok
                  rw [if_neg hc1, if_neg hc2, if_neg hc3, if_neg hc4, if_pos hc5,
                      if_pos hi, if_pos hroot, hv] at hok
                  dsimp only at hok
                  rw [if_pos hlen] at hok
                  have h := pure_eq_ok hok
                  subst h
                  apply hfin <;>
                    simp [labelReplace_keys, labelReplace_children,
                      labelReplace_childIdx, labelReplace_ptype, apply_ite, ite_self]
              · constructor
                · intro hcontra
                  simp only [valueStep] at hcontra
                  rw [if_neg hc1, if_neg hc2, if_neg hc3, if_neg hc4, if_pos hc5,
                      if_pos hi, if_pos hroot, hv] at hcontra
                  dsimp only at hcontra
                  rw [if_neg hlen] at hcontra
                  exact pure_ne_error hcontra
                · intro ls' hok
                  simp only [valueStep] at hok
                  rw [if_neg hc1, if_neg hc2, if_neg hc3, if_neg hc4, if_pos hc5,
                      if_pos hi, if_pos hroot, hv] at hok
                  dsimp only at hok
                  rw [if_neg hlen] at hok
                  have h := pure_eq_ok hok
                  subst h
                  apply hfin <;>
                    simp [labelReplace_keys, labelReplace_children,
                      labelReplace_childIdx, labelReplace_ptype, apply_ite, ite_self]
          · constructor
            · intro hcontra
              simp only [valueStep] at hcontra
              rw [if_neg hc1, if_neg hc2, if_neg hc3, if_neg hc4, if_pos hc5,
                  if_pos hi, if_neg hroot] at hcontra
              exact pure_ne_error hcontra
            · intro ls' hok
              simp only [valueStep] at hok
              rw [if_neg hc1, if_neg hc2, if_neg hc3, if_neg hc4, if_pos hc5,
                  if_pos hi, if_neg hroot] at hok
              have h := pure_eq_ok hok
              subst h
              apply hfin <;>
                simp [labelReplace_keys, labelReplace_children,
                  labelReplace_childIdx, labelReplace_ptype, apply_ite, ite_self]
        · constructor
          · intro hcontra
            simp only [valueStep] at hcontra
            rw [if_neg hc1, if_neg hc2, if_neg hc3, if_neg hc4, if_pos hc5,
                if_neg hi] at hcontra
            exact pure_ne_error hcontra
          · intro ls' hok
            simp only [valueStep] at hok
            rw [if_neg hc1, if_neg hc2, if_neg hc3, if_neg hc4, if_pos hc5,
                if_neg hi] at hok
            have h := pure_eq_ok hok
            subst h
            apply hfin <;> simp
      · cases hattr : attrs.getD i none with
        | none =>
          have hb10 : ((ls.keys.getD i default).lkp_data_type != NLA_NUL_STRING) = true := by
            simp only [bne_iff_ne, ne_eq]
            exact ht10
          have hb8 : ((ls.keys.getD i default).lkp_data_type != NLA_NESTED) = true := by
            simp only [bne_iff_ne, ne_eq]
            exact ht8
          have hc2 : (((((ls.keys.getD i default).lkp_data_type != NLA_NUL_STRING
              && (ls.keys.getD i default).lkp_data_type != NLA_NESTED)
              && (attrs.getD i none).isNone)) = true) := by
            rw [hattr]
            simp only [hb10, hb8, Option.isNone_none, Bool.and_true, Bool.and_self]
          constructor
          · intro hcontra
            simp only [valueStep] at hcontra
            rw [if_neg hc1, if_pos hc2] at hcontra
            exact pure_ne_error hcontra
          · intro ls' hok
            simp only [valueStep] at hok
            rw [if_neg hc1, if_pos hc2] at hok
            have h := pure_eq_ok hok
            subst h
            exact ⟨keyTypesEq_refl _, rfl, hlist, rfl, Nat.le_add_right _ _⟩
        | some a =>
          have hb10 : ((ls.keys.getD i default).lkp_data_type != NLA_NUL_STRING) = true := by
            simp only [bne_iff_ne, ne_eq]
            exact ht10
          have hb8 : ((ls.keys.getD i default).lkp_data_type != NLA_NESTED) = true := by
            simp only [bne_iff_ne, ne_eq]
            exact ht8
          have hc2 : ¬((((ls.keys.getD i default).lkp_data_type != NLA_NUL_STRING
              && (ls.keys.getD i default).lkp_data_type != NLA_NESTED)
              && (attrs.getD i none).isNone) = true) := by
            rw [hattr]
            simp only [Option.isNone_some, Bool.and_false,
              Bool.false_eq_true, not_false_eq_true]
          have hc3 : (((ls.keys.getD i default).lkp_data_type != NLA_NUL_STRING
              && (ls.keys.getD i default).lkp_data_type != NLA_NESTED) = true) := by
            simp only [hb10, hb8, Bool.and_self]
          have hc4 : ¬(((ls.keys.getD i default).lkp_data_type == NLA_NESTED) = true) := by
            simp only [beq_iff_eq]
            exact ht8
          have hc5 : ¬(((ls.keys.getD i default).lkp_data_type == NLA_NUL_STRING) = true) := by
            simp only [beq_iff_eq]
            exact ht10
          have hfin2 : ∀ lsx : ValueLoopSt,
              lsx.keys = ls.keys → lsx.children = ls.children →
              lsx.childIdx = ls.childIdx →
              lsx.parent.lkp_data_type = ls.parent.lkp_data_type →
              keyTypesEq lsx.keys ls.keys
              ∧ lsx.children.length = ls.children.length
              ∧ schemaInvList lsx.children = true
              ∧ lsx.parent.lkp_data_type = ls.parent.lkp_data_type
              ∧ lsx.childIdx ≤ ls.childIdx
                 + (if (ls.keys.getD i default).lkp_data_type = NLA_NESTED
                    then 1 else 0) := by
            intro lsx h1 h2 h3 h4
            refine ⟨h1 ▸ keyTypesEq_refl _, by rw [h2], by rw [h2]; exact hlist, h4, ?_⟩
            rw [h3]
            exact Nat.le_add_right _ _
          cases hfs : formatScalar (ls.keys.getD i default).lkp_data_type a with
          | none =>
            constructor
            · intro hcontra
              simp only [valueStep] at hcontra
              rw [if_neg hc1, if_neg hc2, if_pos hc3, if_neg hc4, if_neg hc5,
                  hattr] at hcontra
              exact pure_ne_error hcontra
            · intro ls' hok
              simp only [valueStep] at hok
              rw [if_neg hc1, if_neg hc2, if_pos hc3, if_neg hc4, if_neg hc5,
                  hattr] at hok
              simp only [Option.getD_some, hfs] at hok
              have h := pure_eq_ok hok
              subst h
              apply hfin2 <;>
                simp [indentKeyPhase_keys, indentKeyPhase_children,
                  indentKeyPhase_childIdx, indentKeyPhase_parent]
          | some txt =>
            constructor
            · intro hcontra
              simp only [valueStep] at hcontra
              rw [if_neg hc1, if_neg hc2, if_pos hc3, if_neg hc4, if_neg hc5,
                  hattr] at hcontra
              exact pure_ne_error hcontra
            · intro ls' hok
              simp only [valueStep] at hok
              rw [if_neg hc1, if_neg hc2, if_pos hc3, if_neg hc4, if_neg hc5,
                  hattr] at hok
              simp only [Option.getD_some, hfs] at hok
              have h := pure_eq_ok hok
              subst h
              apply hfin2 <;>
                simp [indentKeyPhase_keys, indentKeyPhase_children,
                  indentKeyPhase_childIdx, indentKeyPhase_parent]

/-- The nested-element loop is `noChild`-safe for an invariant-satisfying
child node, and it touches only the write state and the key-table strings. -/
theorem elemLoop_safe (f : Nat)
    (ihP : ∀ (st : WriteSt) (node : YamlNlNode) (attrs : List (Option NlaValue))
        (parent : LnKeyProps) (atRoot : Bool), schemaInvB node = true →
        (yaml_parse_value_list f st node attrs parent atRoot ≠ .error .noChild
         ∧ ∀ st' parent' node',
             yaml_parse_value_list f st node attrs parent atRoot = .ok (st', parent', node') →
             parent'.lkp_data_type = parent.lkp_data_type ∧ schemaInvB node' = true))
    (ihR : ∀ (i : Nat) (elems : List (List (Option NlaValue))) (next : YamlNlNode)
        (ls : ValueLoopSt), schemaInvB next = true →
        (elemLoop f i elems next ls ≠ .error .noChild
         ∧ ∀ ls' next', elemLoop f i elems next ls = .ok (ls', next') →
             keyTypesEq ls'.keys ls.keys ∧ ls'.children = ls.children
             ∧ ls'.childIdx = ls.childIdx ∧ ls'.parent = ls.parent
             ∧ schemaInvB next' = true)) :
    ∀ (i : Nat) (elems : List (List (Option NlaValue))) (next : YamlNlNode)
      (ls : ValueLoopSt), schemaInvB next = true →
      (elemLoop (f + 1) i elems next ls ≠ .error .noChild
       ∧ ∀ ls' next', elemLoop (f + 1) i elems next ls = .ok (ls', next') →
           keyTypesEq ls'.keys ls.keys ∧ ls'.children = ls.children
           ∧ ls'.childIdx = ls.childIdx ∧ ls'.parent = ls.parent
           ∧ schemaInvB next' = true) := by
  intro i elems next ls hnext
  cases elems with
  | nil =>
    constructor
    · intro hcontra
      simp only [elemLoop] at hcontra
      exact pure_ne_error hcontra
    · intro ls' next' hok
      simp only [elemLoop] at hok
      have h := pure_eq_ok hok
      injection h with h1 h2
      subst h1
      subst h2
      exact ⟨keyTypesEq_refl _, rfl, rfl, rfl, hnext⟩
  | cons e es =>
    by_cases hf : (((ls.keys.getD i default).lkp_key_format &&& LNKF_FLOW != 0) = true)
    · constructor
      · intro hcontra
        simp only [elemLoop] at hcontra
        rw [if_pos hf] at hcontra
        dsimp only at hcontra
        rcases bind_eq_error hcontra with he | ⟨⟨st2, p2, n2⟩, hx, hgx⟩
        · exact (ihP _ _ _ _ _ hnext).1 he
        · have hP := (ihP _ _ _ _ _ hnext).2 _ _ _ hx
          dsimp only at hgx
          exact (ihR _ _ _ _ hP.2).1 hgx
      · intro ls' next' hok
        simp only [elemLoop] at hok
        rw [if_pos hf] at hok
        dsimp only at hok
        obtain ⟨⟨st2, p2, n2⟩, hx, hgx⟩ := bind_eq_ok hok
        have hP := (ihP _ _ _ _ _ hnext).2 _ _ _ hx
        dsimp only at hgx
        have hR := (ihR _ _ _ _ hP.2).2 ls' next' hgx
        refine ⟨?_, ?_, ?_, ?_, hR.2.2.2.2⟩
        · exact keyTypesEq_trans hR.1 (keyTypesEq_set ls.keys i p2 hP.1)
        · exact hR.2.1
        · exact hR.2.2.1
        · exact hR.2.2.2.1
    · constructor
      · intro hcontra
        simp only [elemLoop] at hcontra
        rw [if_neg hf] at hcontra
        dsimp only at hcontra
        rcases bind_eq_error hcontra with he | ⟨⟨st2, p2, n2⟩, hx, hgx⟩
        · exact (ihP _ _ _ _ _ hnext).1 he
        · have hP := (ihP _ _ _ _ _ hnext).2 _ _ _ hx
          dsimp only at hgx
          exact (ihR _ _ _ _ hP.2).1 hgx
      · intro ls' next' hok
        simp only [elemLoop] at hok
        rw [if_neg hf] at hok
        dsimp only at hok
        obtain ⟨⟨st2, p2, n2⟩, hx, hgx⟩ := bind_eq_ok hok
        have hP := (ihP _ _ _ _ _ hnext).2 _ _ _ hx
        dsimp only at hgx
        have hR := (ihR _ _ _ _ hP.2).2 ls' next' hgx
        refine ⟨?_, ?_, ?_, ?_, hR.2.2.2.2⟩
        · exact keyTypesEq_trans hR.1 (keyTypesEq_set ls.keys i p2 hP.1)
        · exact hR.2.1
        · exact hR.2.2.1
        · exact hR.2.2.2.1

/-- The combined safety induction over the value-phase mutual recursion:
under spec invariant 2 (`schemaInvB`), `yaml_parse_value_list` never reaches
the NULL dereference of `get_next_child`'s result (`PErr.noChild`), and it
preserves the invariant together with every slot's declared data type. -/
theorem valueSafety (fuel : Nat) :
    (∀ (st : WriteSt) (node : YamlNlNode) (attrs : List (Option NlaValue))
        (parent : LnKeyProps) (atRoot : Bool), schemaInvB node = true →
        (yaml_parse_value_list fuel st node attrs parent atRoot ≠ .error .noChild
         ∧ ∀ st' parent' node',
             yaml_parse_value_list fuel st node attrs parent atRoot
               = .ok (st', parent', node') →
             parent'.lkp_data_type = parent.lkp_data_type ∧ schemaInvB node' = true))
    ∧ (∀ (idxs : List Nat) (attrs : List (Option NlaValue)) (atRoot : Bool)
        (ls : ValueLoopSt),
        countNested ls.keys idxs + ls.childIdx ≤ ls.children.length →
        schemaInvList ls.children = true →
        (valueLoop fuel idxs attrs atRoot ls ≠ .error .noChild
         ∧ ∀ ls', valueLoop fuel idxs attrs atRoot ls = .ok ls' →
             keyTypesEq ls'.keys ls.keys
             ∧ ls'.children.length = ls.children.length
             ∧ schemaInvList ls'.children = true
             ∧ ls'.parent.lkp_data_type = ls.parent.lkp_data_type))
    ∧ (∀ (i : Nat) (attrs : List (Option NlaValue)) (atRoot : Bool) (ls : ValueLoopSt),
        ((ls.keys.getD i default).lkp_data_type = NLA_NESTED →
          ls.childIdx < ls.children.length) →
        schemaInvList ls.children = true →
        (valueStep fuel i attrs atRoot ls ≠ .error .noChild
         ∧ ∀ ls', valueStep fuel i attrs atRoot ls = .ok ls' →
             keyTypesEq ls'.keys ls.keys
             ∧ ls'.children.length = ls.children.length
             ∧ schemaInvList ls'.children = true
             ∧ ls'.parent.lkp_data_type = ls.parent.lkp_data_type
             ∧ ls'.childIdx ≤ ls.childIdx
                 + (if (ls.keys.getD i default).lkp_data_type = NLA_NESTED
                    then 1 else 0)))
    ∧ (∀ (i : Nat) (elems : List (List (Option NlaValue))) (next : YamlNlNode)
        (ls : ValueLoopSt), schemaInvB next = true →
        (elemLoop fuel i elems next ls ≠ .error .noChild
         ∧ ∀ ls' next', elemLoop fuel i elems next ls = .ok (ls', next') →
             keyTypesEq ls'.keys ls.keys ∧ ls'.children = ls.children
             ∧ ls'.childIdx = ls.childIdx ∧ ls'.parent = ls.parent
             ∧ schemaInvB next' = true)) := by
  induction fuel with
  | zero =>
    refine ⟨?_, ?_, ?_, ?_⟩
    · intro st node attrs parent atRoot h
      exact ⟨by simp [yaml_parse_value_list], by simp [yaml_parse_value_list]⟩
    · intro idxs attrs atRoot ls h1 h2
      exact ⟨by simp [valueLoop], by simp [valueLoop]⟩
    · intro i attrs atRoot ls h1 h2
      exact ⟨by simp [valueStep], by simp [valueStep]⟩
    · intro i elems next ls h
      exact ⟨by simp [elemLoop], by simp [elemLoop]⟩
  | succ f ih =>
    obtain ⟨ihP, ihQ, ihS, ihR⟩ := ih
    refine ⟨?_, ?_, valueStep_safe f ihR, elemLoop_safe f ihP ihR⟩
    · intro st node attrs parent atRoot hinv
      cases node with
      | mk maxattr keys children =>
        have hparts : countNested keys (List.range' 1 (maxattr - 1)) ≤ children.length
            ∧ schemaInvList children = true := by
          have h2 := hinv
          simp only [schemaInvB, Bool.and_eq_true, decide_eq_true_eq] at h2
          exact h2
        have hQ := ihQ (List.range' 1 (maxattr - 1)) attrs atRoot
          ⟨st, 0, 0, parent.lkp_key_format, keys, children, parent⟩
          (by simpa using hparts.1) hparts.2
        constructor
        · intro hcontra
          simp only [yaml_parse_value_list] at hcontra
          rcases bind_eq_error hcontra with he | ⟨lsq, hx, hgx⟩
          · exact hQ.1 he
          · exact pure_ne_error hgx
        · intro st' parent' node' hok
          simp only [yaml_parse_value_list] at hok
          obtain ⟨lsq, hx, hgx⟩ := bind_eq_ok hok
          have hC := hQ.2 lsq hx
          have h := pure_eq_ok hgx
          injection h with h1 h23
          injection h23 with h2 h3
          constructor
          · rw [← h2]
            exact hC.2.2.2
          · rw [← h3]
            simp only [schemaInvB, Bool.and_eq_true, decide_eq_true_eq]
            refine ⟨?_, hC.2.2.1⟩
            rw [countNested_congr hC.1, hC.2.1]
            exact hparts.1
    · intro idxs attrs atRoot ls hb hl
      cases idxs with
      | nil =>
        constructor
        · intro hcontra
          simp only [valueLoop] at hcontra
          exact pure_ne_error hcontra
        · intro ls' hok
          simp only [valueLoop] at hok
          have h := pure_eq_ok hok
          subst h
          exact ⟨keyTypesEq_refl _, rfl, hl, rfl⟩
      | cons i rest =>
        rw [countNested_cons] at hb
        have hS := ihS i attrs atRoot ls
          (fun h2 => by rw [if_pos h2] at hb; omega) hl
        constructor
        · intro hcontra
          simp only [valueLoop] at hcontra
          rcases bind_eq_error hcontra with he | ⟨ls1, hx, hgx⟩
          · exact hS.1 he
          · have hC := hS.2 ls1 hx
            have hb1 : countNested ls1.keys rest + ls1.childIdx ≤ ls1.children.length := by
              rw [countNested_congr hC.1, hC.2.1]
              have h5 := hC.2.2.2.2
              by_cases hn : (ls.keys.getD i default).lkp_data_type = NLA_NESTED
              · rw [if_pos hn] at h5 hb
                omega
              · rw [if_neg hn] at h5 hb
                omega
            exact (ihQ rest attrs atRoot ls1 hb1 hC.2.2.1).1 hgx
        · intro ls' hok
          simp only [valueLoop] at hok
          obtain ⟨ls1, hx, hgx⟩ := bind_eq_ok hok
          have hC := hS.2 ls1 hx
          have hb1 : countNested ls1.keys rest + ls1.childIdx ≤ ls1.children.length := by
            rw [countNested_congr hC.1, hC.2.1]
            have h5 := hC.2.2.2.2
            by_cases hn : (ls.keys.getD i default).lkp_data_type = NLA_NESTED
            · rw [if_pos hn] at h5 hb
              omega
            · rw [if_neg hn] at h5 hb
              omega
          have hC2 := (ihQ rest attrs atRoot ls1 hb1 hC.2.2.1).2 ls' hgx
          exact ⟨keyTypesEq_trans hC2.1 hC.1, hC2.2.1.trans hC.2.1, hC2.2.2.1,
                 hC2.2.2.2.trans hC.2.2.2.1⟩

/-- C9: on terminal write of an outbound session, if the emitted YAML
document named no multicast group the emitter is marked errored (a problem
string is recorded and the handler fails) and no message is sent; if a
group was named but the body produced no attributes at all, a command-only
simple message is sent instead of the attribute-bearing message. -/
theorem c9_terminal_send (env : OutEnv) (fuel : Nat) (buffer : List Char) (r : OutRecord)
    (h : yaml_netlink_write_handler env fuel buffer = some r) :
    (r.nogroups = true → r.sent = none ∧ r.problem.isSome = true ∧ r.retOk = false)
    ∧ (r.aborted = false → r.nogroups = false → r.msgAttrs = none →
        r.sent = some SendKind.simple) := by
  unfold yaml_netlink_write_handler at h
  cases hq : yaml_quotation_handling fuel buffer with
  | none => rw [hq] at h; cases h
  | some b =>
    rw [hq] at h
    dsimp only at h
    cases hl : writeLoopTop env fuel (some b) 0 0 true none with
    | none => rw [hl] at h; cases h
    | some lr =>
      rw [hl] at h
      injection h with h2
      subst h2
      unfold finalizeWrite
      cases hap : lr.abortProblem with
      | some p => simp [hap]
      | none =>
        simp only [hap]
        by_cases hng : lr.nogroups = true
        · simp [hng]
        · have hngf : lr.nogroups = false := by simpa using hng
          simp only [hngf, Bool.false_eq_true, if_false]
          cases hm : lr.msg with
          | some attrs => simp [hm]
          | none => simp [hm]

/-- Witness for C9: the empty document hits the no-group branch, and a
group line with an empty body sends the command-only simple message. -/
theorem c9_terminal_send_witness :
    (yaml_netlink_write_handler outEnv0 100 [] = some c9rec1
     ∧ c9rec1.nogroups = true
     ∧ (c9rec1.sent = none ∧ c9rec1.problem.isSome = true ∧ c9rec1.retOk = false))
    ∧ (yaml_netlink_write_handler outEnv0 100 c9buf2 = some c9rec2
     ∧ c9rec2.aborted = false ∧ c9rec2.nogroups = false ∧ c9rec2.msgAttrs = none
     ∧ c9rec2.sent = some SendKind.simple) :=
  ⟨⟨rfl, rfl, (c9_terminal_send outEnv0 100 [] c9rec1 rfl).1 rfl⟩,
   ⟨rfl, rfl, rfl, rfl,
    (c9_terminal_send outEnv0 100 c9buf2 c9rec2 rfl).2 rfl rfl rfl⟩⟩

/-- C10: value-batch processing fetches and dereferences the next child
schema node for a nested-typed slot without a NULL check, even when the
value attribute for that slot is absent - on a schema node violating
invariant 2 the embedded transcoder reaches the modelled NULL dereference
(`PErr.noChild`) - and under the precondition that the cached schema
provides a child per nested-typed key (spec invariant 2, `schemaInvB`),
that dereference is unreachable for every fuel, buffer state, value batch,
parent descriptor and root flag. -/
theorem c10_nested_child_precondition :
    yaml_parse_value_list 100 st0 c10badNode [none, none]
        (c10badNode.keys.getD 1 default) true = .error .noChild
    ∧ ∀ (fuel : Nat) (st : WriteSt) (node : YamlNlNode) (attrs : List (Option NlaValue))
        (parent : LnKeyProps) (atRoot : Bool), schemaInvB node = true →
        yaml_parse_value_list fuel st node attrs parent atRoot ≠ .error .noChild :=
  ⟨rfl, fun fuel st node attrs parent atRoot h =>
    ((valueSafety fuel).1 st node attrs parent atRoot h).1⟩

/-- Witness for C10: the S1 schema tree satisfies invariant 2, and value
processing on it cannot reach the NULL-child dereference. -/
theorem c10_nested_child_precondition_witness :
    schemaInvB s1root = true
    ∧ yaml_parse_value_list 100 s1start s1root s1attrs (s1root.keys.getD 1 default) true
        ≠ .error .noChild :=
  ⟨rfl, c10_nested_child_precondition.2 100 s1start s1root s1attrs
      (s1root.keys.getD 1 default) true rfl⟩
